import Mathlib

/-
  Verification development for the EEC cloud scheduler (Scheduler.cpp /
  Scheduler.hpp).  The scheduler's callback functions are shallowly embedded
  as pure state transformers over an explicit host model: each embedded
  callback takes the scheduler state and a host snapshot and returns the new
  scheduler state, the new host snapshot (host mutators that take effect
  synchronously are applied in place; asynchronous ones such as
  Machine_SetState only appear in the emitted call trace), and the list of
  host mutator calls it issued, in program order.

  Modelling conventions:
  - machine ids, VM ids and task ids are naturals;
  - C++ doubles (utilization) are modelled as exact rationals;
  - uint64 arithmetic (the urgency test) is modelled with explicit `% 2^64`;
  - the pervasive try/catch blocks absorb host inspector failures; the host
    model is total, so those catch branches are unreachable and elided;
  - std::set iteration is ascending, modelled by sorted duplicate-free lists;
  - std::map<VMId_t, MachineId_t> (pendingMigrations) is modelled as an
    association list with key lookup / insert / erase.
-/

set_option maxHeartbeats 1000000

namespace EEC

/-- CPU families of the simulator (SimTypes.h, enum order ARM, POWER, RISCV, X86). -/
inductive CPUType where
  | ARM | POWER | RISCV | X86
deriving DecidableEq, Repr

/-- VM types of the simulator. -/
inductive VMType where
  | AIX | LINUX | LINUX_RT | WIN
deriving DecidableEq, Repr

/-- Machine sleep states, in enum order (S0 active ... S5 off). -/
inductive MachineState where
  | S0 | S0i1 | S1 | S2 | S3 | S4 | S5
deriving DecidableEq, Repr

/-- Per-core performance states, P0 fastest. -/
inductive CPUPerformance where
  | P0 | P1 | P2 | P3
deriving DecidableEq, Repr

/-- SLA classes, SLA0 strictest. -/
inductive SLAType where
  | SLA0 | SLA1 | SLA2 | SLA3
deriving DecidableEq, Repr

/-- Task priorities as passed to VM_AddTask. -/
inductive Priority where
  | HIGH_PRIORITY | MID_PRIORITY | LOW_PRIORITY
deriving DecidableEq, Repr

open CPUType VMType MachineState CPUPerformance SLAType Priority

/-- Machine attributes visible through Machine_GetInfo. -/
structure MachineInfo where
  cpu : CPUType
  num_cpus : Nat
  memory_size : Nat
  memory_used : Nat
  s_state : MachineState
  p_state : CPUPerformance
  active_tasks : Nat
  s_states : List Nat
deriving DecidableEq, Repr

/-- VM attributes visible through VM_GetInfo.  `machine_id = none` models the
C++ sentinel MachineId_t(-1) for an unattached VM. -/
structure VMInfo where
  cpu : CPUType
  vm_type : VMType
  machine_id : Option Nat
  active_tasks : List Nat
deriving DecidableEq, Repr

/-- Task attributes visible through the task inspectors. -/
structure TaskInfo where
  required_cpu : CPUType
  required_vm : VMType
  required_memory : Nat
  required_sla : SLAType
  target_completion : Nat
  priority : Priority
deriving DecidableEq, Repr

/-- Snapshot of the host the scheduler runs against.  `nextVm` is the id
VM_Create will allocate next. -/
structure Host where
  nMachines : Nat
  minfo : Nat → MachineInfo
  vinfo : Nat → VMInfo
  tinfo : Nat → TaskInfo
  nextVm : Nat

/-- Host mutator calls the scheduler can issue, recorded in program order. -/
inductive HostCall where
  | setState : Nat → MachineState → HostCall
  | setCorePerf : Nat → Nat → CPUPerformance → HostCall
  | vmCreate : Nat → VMType → CPUType → HostCall
  | vmAttach : Nat → Nat → HostCall
  | vmAddTask : Nat → Nat → Priority → HostCall
  | vmMigrate : Nat → Nat → HostCall
  | vmShutdown : Nat → HostCall
  | setTaskPriority : Nat → Priority → HostCall
deriving DecidableEq, Repr

/-- Pointwise update of a table. -/
def updFn {α : Type} (f : Nat → α) (k : Nat) (v : α) : Nat → α :=
  fun n => if n = k then v else f n

/-- VM_MEMORY_OVERHEAD as declared by the host (Interfaces.h). -/
def VM_MEMORY_OVERHEAD : Nat := 8

/-- UINT_MAX, the initial value of lowest_task_count in NewTask. -/
def UINT_MAX : Nat := 4294967295

/-- OVERLOAD_THRESHOLD = 0.8 (Scheduler.hpp).  Rational constants are built
with mkRat so that concrete runs reduce inside the kernel. -/
def OVERLOAD_THRESHOLD : ℚ := mkRat 4 5

/-- 2^64, the modulus of uint64 arithmetic. -/
def W64 : Nat := 18446744073709551616

/-- uint64 subtraction `a - b` with wraparound, as in the urgency test of
Scheduler::NewTask. -/
def usub64 (a b : Nat) : Nat := (a % W64 + (W64 - b % W64)) % W64

/-- VM_Create: allocate a fresh unattached VM. -/
def hostVmCreate (h : Host) (vt : VMType) (ct : CPUType) : Host × Nat :=
  ({ h with
      vinfo := updFn h.vinfo h.nextVm ⟨ct, vt, none, []⟩
      nextVm := h.nextVm + 1 }, h.nextVm)

/-- VM_Attach: bind the VM to the machine; the host charges the VM overhead
against the machine's memory. -/
def hostVmAttach (h : Host) (vm m : Nat) : Host :=
  let mi := h.minfo m
  { h with
      vinfo := updFn h.vinfo vm { h.vinfo vm with machine_id := some m }
      minfo := updFn h.minfo m
        { mi with memory_used := mi.memory_used + VM_MEMORY_OVERHEAD } }

/-- VM_AddTask: append the task to the VM, charge its memory to the hosting
machine, bump the machine's task count and record the task's priority. -/
def hostAddTask (h : Host) (vm task : Nat) (p : Priority) : Host :=
  let vi := h.vinfo vm
  match vi.machine_id with
  | none => h
  | some m =>
    let mi := h.minfo m
    { h with
        vinfo := updFn h.vinfo vm { vi with active_tasks := vi.active_tasks ++ [task] }
        minfo := updFn h.minfo m
          { mi with
              memory_used := mi.memory_used + (h.tinfo task).required_memory
              active_tasks := mi.active_tasks + 1 }
        tinfo := updFn h.tinfo task { h.tinfo task with priority := p } }

/-- Machine_SetCorePerformance: performance changes take effect synchronously
(no completion callback exists for them); the host propagates core 0 to the
machine's sibling cores, so the machine-level p_state becomes the target. -/
def hostSetPerf (h : Host) (m : Nat) (p : CPUPerformance) : Host :=
  { h with minfo := updFn h.minfo m { h.minfo m with p_state := p } }

/-- SetTaskPriority. -/
def hostSetTaskPriority (h : Host) (task : Nat) (p : Priority) : Host :=
  { h with tinfo := updFn h.tinfo task { h.tinfo task with priority := p } }

/-- VM_Shutdown detaches the VM from its machine. -/
def hostVmDetach (h : Host) (vm : Nat) : Host :=
  { h with vinfo := updFn h.vinfo vm { h.vinfo vm with machine_id := none } }

/-- Scheduler state: the fields of class Scheduler that Scheduler.cpp uses
(machines, activeMachines, machineUtilization, sortedMachinesByEfficiency,
vms, pendingMigrations). -/
structure Sched where
  machines : List Nat
  activeMachines : List Nat
  machineUtilization : Nat → ℚ
  sortedMachinesByEfficiency : List Nat
  vms : List Nat
  pendingMigrations : List (Nat × Nat)

/-- Result of one embedded callback: new scheduler state, new host snapshot,
and the trace of host mutator calls issued. -/
structure Step where
  sched : Sched
  host : Host
  calls : List HostCall

/-- Key lookup in the pending-migration map. -/
def plook : List (Nat × Nat) → Nat → Option Nat
  | [], _ => none
  | (k, v) :: r, x => if x = k then some v else plook r x

/-- Map insert (operator[] assignment) for the pending-migration map. -/
def pinsertPM : List (Nat × Nat) → Nat → Nat → List (Nat × Nat)
  | [], k, v => [(k, v)]
  | (k0, v0) :: r, k, v =>
    if k = k0 then (k, v) :: r else (k0, v0) :: pinsertPM r k v

/-- Map erase for the pending-migration map. -/
def perasePM (l : List (Nat × Nat)) (k : Nat) : List (Nat × Nat) :=
  l.filter (fun kv => kv.1 ≠ k)

/-- Ordered insert into the (sorted, duplicate-free) std::set model. -/
def sinsert (m : Nat) : List Nat → List Nat
  | [] => [m]
  | a :: r => if m < a then m :: a :: r else if m = a then a :: r else a :: sinsert m r

/-- Erase from the std::set model. -/
def serase (l : List Nat) (m : Nat) : List Nat :=
  l.filter (fun x => x ≠ m)

/-- Derived priority of a new task (Scheduler::NewTask, lines 127-128): the
switch on the SLA class followed by the unsigned urgency override. -/
def derivedPriority (sla : SLAType) (target_completion now : Nat) : Priority :=
  let urgent := usub64 target_completion now ≤ 12000000
  let p := match sla with
    | SLA0 => HIGH_PRIORITY
    | SLA1 => MID_PRIORITY
    | SLA2 => LOW_PRIORITY
    | SLA3 => LOW_PRIORITY
  if urgent then HIGH_PRIORITY else p

/-- HasHighPriorityTasks (Scheduler.cpp, lines 17-36): does any VM on this
machine hold a task of class SLA0 or SLA1? -/
def hasHighPriorityTasks (vms : List Nat) (h : Host) (machine_id : Nat) : Bool :=
  vms.any fun vm =>
    let vi := h.vinfo vm
    decide (vi.machine_id = some machine_id) &&
      vi.active_tasks.any fun t =>
        let sla := (h.tinfo t).required_sla
        decide (sla = SLA0) || decide (sla = SLA1)

/-- Accumulator of the VM-match loop of NewTask: idle_compatible_vm,
least_loaded_compatible_vm and lowest_task_count. -/
structure ScanAcc where
  idle : Option Nat
  least : Option Nat
  low : Nat
deriving DecidableEq, Repr

/-- The VM-match loop of Scheduler::NewTask (lines 135-170), including the
final target selection (target / idle / least-loaded).  The SLA0/SLA1 break
is the early `some vm` return. -/
def vmScanGo (h : Host) (pend : List (Nat × Nat)) (rc : CPUType) (rv : VMType)
    (rm : Nat) (sla : SLAType) : List Nat → ScanAcc → Option Nat
  | [], acc =>
    match acc.idle with
    | some v => some v
    | none => acc.least
  | vm :: rest, acc =>
    if (plook pend vm).isSome then vmScanGo h pend rc rv rm sla rest acc
    else
      match (h.vinfo vm).machine_id with
      | none => vmScanGo h pend rc rv rm sla rest acc
      | some mid =>
        let mi := h.minfo mid
        if mi.s_state ≠ S0 then vmScanGo h pend rc rv rm sla rest acc
        else if (h.vinfo vm).cpu = rc ∧ (h.vinfo vm).vm_type = rv then
          if mi.memory_used + rm ≤ mi.memory_size then
            let tasks := (h.vinfo vm).active_tasks
            if tasks.isEmpty ∧ (sla = SLA0 ∨ sla = SLA1) then some vm
            else
              let acc1 := if tasks.isEmpty then { acc with idle := some vm } else acc
              let acc2 :=
                if tasks.length < acc1.low then
                  { acc1 with least := some vm, low := tasks.length }
                else acc1
              vmScanGo h pend rc rv rm sla rest acc2
          else vmScanGo h pend rc rv rm sla rest acc
        else vmScanGo h pend rc rv rm sla rest acc

/-- The complete VM-match step of NewTask over the scheduler's VM list. -/
def vmScan (s : Sched) (h : Host) (rc : CPUType) (rv : VMType) (rm : Nat)
    (sla : SLAType) : Option Nat :=
  vmScanGo h s.pendingMigrations rc rv rm sla s.vms ⟨none, none, UINT_MAX⟩

/-- The active-machine search of NewTask (lines 176-190): first eligible S0
machine in efficiency order. -/
def findActiveMachineGo (s : Sched) (h : Host) (rc : CPUType) (rm : Nat)
    (sla : SLAType) : List Nat → Option Nat
  | [] => none
  | m :: rest =>
    if m ∈ s.activeMachines then
      let info := h.minfo m
      if info.s_state ≠ S0 then findActiveMachineGo s h rc rm sla rest
      else if info.cpu = rc ∧ info.memory_used + rm + VM_MEMORY_OVERHEAD ≤ info.memory_size then
        let u := s.machineUtilization m
        if (sla = SLA0 ∨ sla = SLA1) ∧ u > mkRat 1 2 then findActiveMachineGo s h rc rm sla rest
        else if u > OVERLOAD_THRESHOLD then findActiveMachineGo s h rc rm sla rest
        else some m
      else findActiveMachineGo s h rc rm sla rest
    else findActiveMachineGo s h rc rm sla rest

/-- The wake-a-machine search of NewTask (lines 192-206): first inactive
machine in efficiency order with matching CPU and enough total memory.  The
Machine_SetState(S0) it issues is emitted by the caller. -/
def findWakeMachineGo (s : Sched) (h : Host) (rc : CPUType) (rm : Nat) :
    List Nat → Option Nat
  | [] => none
  | m :: rest =>
    if m ∈ s.activeMachines then findWakeMachineGo s h rc rm rest
    else
      let info := h.minfo m
      if info.cpu = rc ∧ rm + VM_MEMORY_OVERHEAD ≤ info.memory_size then some m
      else findWakeMachineGo s h rc rm rest

/-- MemoryWarning (Scheduler.cpp, lines 452-506).  The largest-VM search in
the source only feeds logging (its migration logic is commented out), so only
its observable effect remains: every core of the machine is set to P0. -/
def memoryWarning (s : Sched) (h : Host) (machine_id : Nat) : Step :=
  let mi := h.minfo machine_id
  let calls := (List.range mi.num_cpus).map fun i => HostCall.setCorePerf machine_id i P0
  let h1 := if mi.num_cpus > 0 then hostSetPerf h machine_id P0 else h
  ⟨s, h1, calls⟩

/-- The commit step of NewTask (lines 225-245): re-verify attachment, S0 and
memory, then VM_AddTask (plus the SLA0/SLA1 P0 boost) or MemoryWarning. -/
def commitTask (s : Sched) (h : Host) (task : Nat) (rm : Nat) (sla : SLAType)
    (prio : Priority) (tv : Nat) : Step :=
  let vi := h.vinfo tv
  match vi.machine_id with
  | none => ⟨s, h, []⟩
  | some m =>
    let mi := h.minfo m
    if mi.s_state ≠ S0 then ⟨s, h, []⟩
    else if mi.memory_used + rm ≤ mi.memory_size then
      let h1 := hostAddTask h tv task prio
      if sla = SLA0 ∨ sla = SLA1 then
        ⟨s, hostSetPerf h1 m P0,
          [HostCall.vmAddTask tv task prio, HostCall.setCorePerf m 0 P0]⟩
      else ⟨s, h1, [HostCall.vmAddTask tv task prio]⟩
    else
      let st := memoryWarning s h m
      ⟨st.sched, st.host, st.calls⟩

/-- Scheduler::NewTask (lines 121-246): derive the priority, try the VM-match
step, then the machine-match step (create + attach a VM), then the wake step
(SetState + create, no attach), then commit. -/
def newTask (s : Sched) (h : Host) (now task : Nat) : Step :=
  let ti := h.tinfo task
  let rc := ti.required_cpu
  let rv := ti.required_vm
  let sla := ti.required_sla
  let rm := ti.required_memory
  let prio := derivedPriority sla ti.target_completion now
  match vmScan s h rc rv rm sla with
  | some tv => commitTask s h task rm sla prio tv
  | none =>
    match findActiveMachineGo s h rc rm sla s.sortedMachinesByEfficiency with
    | some m =>
      let hv := hostVmCreate h rv rc
      let s1 := { s with vms := s.vms ++ [hv.2] }
      let h2 := hostVmAttach hv.1 hv.2 m
      let st := commitTask s1 h2 task rm sla prio hv.2
      ⟨st.sched, st.host,
        HostCall.vmCreate hv.2 rv rc :: HostCall.vmAttach hv.2 m :: st.calls⟩
    | none =>
      match findWakeMachineGo s h rc rm s.sortedMachinesByEfficiency with
      | some m =>
        let hv := hostVmCreate h rv rc
        let s1 := { s with vms := s.vms ++ [hv.2] }
        let st := commitTask s1 hv.1 task rm sla prio hv.2
        ⟨st.sched, st.host,
          HostCall.setState m S0 :: HostCall.vmCreate hv.2 rv rc :: st.calls⟩
      | none => ⟨s, h, []⟩

/-- Utilization value a periodic sweep stores for machine m
(PeriodicCheck, lines 249-275). -/
def utilVal (h : Host) (act : List Nat) (m : Nat) : ℚ :=
  if m ∈ act then
    let info := h.minfo m
    if info.s_state = S0 then
      if info.num_cpus > 0 then mkRat (info.active_tasks : Int) info.num_cpus else 0
    else 0
  else 0

/-- The utilization-refresh loop of PeriodicCheck over the machines list. -/
def refreshUtilGo (h : Host) (act : List Nat) : List Nat → (Nat → ℚ) → (Nat → ℚ)
  | [], u => u
  | m :: rest, u => refreshUtilGo h act rest (updFn u m (utilVal h act m))

/-- Target P-state the P-state loop of PeriodicCheck computes for machine m
(lines 282-291). -/
def targetOf (s : Sched) (h : Host) (m : Nat) : CPUPerformance :=
  if hasHighPriorityTasks s.vms h m then P0
  else if (h.minfo m).active_tasks > 0 then
    let u := s.machineUtilization m
    if u > mkRat 3 4 then P0 else if u > mkRat 3 10 then P1 else P2
  else P3

/-- The P-state adjustment loop of PeriodicCheck (lines 278-296) over the
active set, threading the host. -/
def pstatePhase (s : Sched) : List Nat → Host → Host × List HostCall
  | [], h => (h, [])
  | m :: rest, h =>
    let info := h.minfo m
    if info.s_state ≠ S0 then pstatePhase s rest h
    else
      let tgt := targetOf s h m
      if info.p_state ≠ tgt then
        let r := pstatePhase s rest (hostSetPerf h m tgt)
        (r.1, HostCall.setCorePerf m 0 tgt :: r.2)
      else pstatePhase s rest h

/-- Scheduler::PeriodicCheck (lines 247-341): refresh utilization, then the
P-state loop.  The migration block at the end of the source is commented out
and contributes nothing. -/
def periodicCheck (s : Sched) (h : Host) : Step :=
  let s1 := { s with
    machineUtilization := refreshUtilGo h s.activeMachines s.machines s.machineUtilization }
  let r := pstatePhase s1 s1.activeMachines h
  ⟨s1, r.1, r.2⟩

/-- Scheduler::MigrationComplete (lines 376-397).  Both branches fall through
to the trailing PeriodicCheck(time). -/
def migrationComplete (s : Sched) (h : Host) (vm : Nat) : Step :=
  match plook s.pendingMigrations vm with
  | some target =>
    let s1 := { s with pendingMigrations := perasePM s.pendingMigrations vm }
    let vi := h.vinfo vm
    if vi.machine_id = some target then
      let mi := h.minfo target
      if hasHighPriorityTasks s1.vms h target ∧ mi.p_state ≠ P0 then
        let st := periodicCheck s1 (hostSetPerf h target P0)
        ⟨st.sched, st.host, HostCall.setCorePerf target 0 P0 :: st.calls⟩
      else periodicCheck s1 h
    else periodicCheck s1 h
  | none => periodicCheck s h

/-- StateChangeComplete (Scheduler.cpp, lines 531-611).  ActivateMachine
(Scheduler.hpp) inserts into the active set and zeroes the utilization entry.
The intermediate-state branch zeroes utilization for S1..S4 and does not run
the periodic check. -/
def stateChangeComplete (s : Sched) (h : Host) (machine_id : Nat) : Step :=
  let mi := h.minfo machine_id
  if mi.s_state = S0 then
    let s1 := { s with
      activeMachines := sinsert machine_id s.activeMachines
      machineUtilization := updFn s.machineUtilization machine_id 0 }
    let cs1 := (List.range mi.num_cpus).map fun i => HostCall.setCorePerf machine_id i P1
    let h1 := if mi.num_cpus > 0 then hostSetPerf h machine_id P1 else h
    let hasVM := s1.vms.any fun vm => decide ((h1.vinfo vm).machine_id = some machine_id)
    if hasVM then
      let st := periodicCheck s1 h1
      ⟨st.sched, st.host, cs1 ++ st.calls⟩
    else
      let hv := hostVmCreate h1 LINUX mi.cpu
      let s2 := { s1 with vms := s1.vms ++ [hv.2] }
      let h3 := hostVmAttach hv.1 hv.2 machine_id
      let st := periodicCheck s2 h3
      ⟨st.sched, st.host,
        cs1 ++ HostCall.vmCreate hv.2 LINUX mi.cpu :: HostCall.vmAttach hv.2 machine_id :: st.calls⟩
  else if mi.s_state = S5 then
    let s1 := { s with
      activeMachines := serase s.activeMachines machine_id
      machineUtilization := updFn s.machineUtilization machine_id 0 }
    periodicCheck s1 h
  else
    let s1 :=
      if mi.s_state = S1 ∨ mi.s_state = S2 ∨ mi.s_state = S3 ∨ mi.s_state = S4 then
        { s with machineUtilization := updFn s.machineUtilization machine_id 0 }
      else s
    ⟨s1, h, []⟩

/-- The machine loop of Scheduler::FindMigrationTarget (lines 426-446),
threading the active set and utilization map it mutates when it
opportunistically wakes a machine. -/
def findMigTargetGo (h : Host) (curMid : Option Nat) (rc : CPUType) (need : Nat) :
    List Nat → List Nat → (Nat → ℚ) → Option Nat × List Nat × (Nat → ℚ) × List HostCall
  | [], act, u => (none, act, u, [])
  | m :: rest, act, u =>
    if some m = curMid then findMigTargetGo h curMid rc need rest act u
    else
      let info := h.minfo m
      if info.cpu ≠ rc then findMigTargetGo h curMid rc need rest act u
      else if info.s_state ≠ S0 then
        if m ∈ act then findMigTargetGo h curMid rc need rest act u
        else
          let r := findMigTargetGo h curMid rc need rest (sinsert m act) (updFn u m 0)
          (r.1, r.2.1, r.2.2.1, HostCall.setState m S0 :: r.2.2.2)
      else if info.memory_used + need > info.memory_size then
        findMigTargetGo h curMid rc need rest act u
      else if u m < OVERLOAD_THRESHOLD then (some m, act, u, [])
      else findMigTargetGo h curMid rc need rest act u

/-- Scheduler::FindMigrationTarget (lines 418-449). -/
def findMigrationTarget (s : Sched) (h : Host) (vm : Nat) :
    Option Nat × Sched × List HostCall :=
  let vi := h.vinfo vm
  let need := VM_MEMORY_OVERHEAD + (vi.active_tasks.map fun t => (h.tinfo t).required_memory).sum
  let r := findMigTargetGo h vi.machine_id vi.cpu need
    s.sortedMachinesByEfficiency s.activeMachines s.machineUtilization
  (r.1, { s with activeMachines := r.2.1, machineUtilization := r.2.2.1 }, r.2.2.2)

/-- The VM loop of Scheduler::Shutdown (lines 357-367): VM_Shutdown every
attached VM, with no pending-migration check. -/
def schedShutdownGo (h : Host) : List Nat → Host × List HostCall
  | [] => (h, [])
  | vm :: rest =>
    match (h.vinfo vm).machine_id with
    | some _ =>
      let r := schedShutdownGo (hostVmDetach h vm) rest
      (r.1, HostCall.vmShutdown vm :: r.2)
    | none => schedShutdownGo h rest

/-- Scheduler::Shutdown (lines 354-374). -/
def schedShutdown (s : Sched) (h : Host) : Host × List HostCall :=
  schedShutdownGo h s.vms

/-- The linear scan of SLAWarning (lines 620-634): first non-pending attached
VM whose active-task list contains the task. -/
def slaFindTaskVM (pend : List (Nat × Nat)) (h : Host) (task : Nat) :
    List Nat → Option (Nat × Nat)
  | [] => none
  | vm :: rest =>
    if (plook pend vm).isSome then slaFindTaskVM pend h task rest
    else
      match (h.vinfo vm).machine_id with
      | none => slaFindTaskVM pend h task rest
      | some mid =>
        if task ∈ (h.vinfo vm).active_tasks then some (vm, mid)
        else slaFindTaskVM pend h task rest

/-- SLAWarning (Scheduler.cpp, lines 614-657). -/
def slaWarning (s : Sched) (h : Host) (task : Nat) : Step :=
  let sla := (h.tinfo task).required_sla
  match slaFindTaskVM s.pendingMigrations h task s.vms with
  | none => ⟨s, h, []⟩
  | some (tvm, tm) =>
    if sla = SLA0 ∨ sla = SLA1 then
      let h1 := hostSetTaskPriority h task HIGH_PRIORITY
      let cs0 := [HostCall.setTaskPriority task HIGH_PRIORITY]
      let mi := h1.minfo tm
      let boost :=
        if mi.s_state = S0 ∧ mi.p_state ≠ P0 then
          (hostSetPerf h1 tm P0, [HostCall.setCorePerf tm 0 P0])
        else (h1, ([] : List HostCall))
      let u := s.machineUtilization tm
      if u > OVERLOAD_THRESHOLD then
        let r := findMigrationTarget s boost.1 tvm
        match r.1 with
        | some g =>
          let s2 := { r.2.1 with pendingMigrations := pinsertPM r.2.1.pendingMigrations tvm g }
          ⟨s2, boost.1, cs0 ++ boost.2 ++ r.2.2 ++ [HostCall.vmMigrate tvm g]⟩
        | none => ⟨r.2.1, boost.1, cs0 ++ boost.2 ++ r.2.2⟩
      else ⟨s, boost.1, cs0 ++ boost.2⟩
    else if sla = SLA2 ∧ (h.tinfo task).priority = LOW_PRIORITY then
      ⟨s, hostSetTaskPriority h task MID_PRIORITY,
        [HostCall.setTaskPriority task MID_PRIORITY]⟩
    else ⟨s, h, []⟩

/-- Lexicographic insertion into the sorted efficiency list; std::sort on
distinct (cost, id) pairs has a unique result, which ordered insertion
reproduces. -/
def insLex (p : Nat × Nat) : List (Nat × Nat) → List (Nat × Nat)
  | [] => [p]
  | q :: r =>
    if p.1 < q.1 ∨ (p.1 = q.1 ∧ p.2 ≤ q.2) then p :: q :: r else q :: insLex p r

/-- Insertion sort for the efficiency pairs. -/
def sortLex : List (Nat × Nat) → List (Nat × Nat)
  | [] => []
  | p :: r => insLex p (sortLex r)

/-- S0-state energy cost used to rank machines in Init (lines 51-55):
s_states[S0] when the list is non-empty, UINT_MAX otherwise. -/
def effCost (h : Host) (m : Nat) : Nat :=
  match (h.minfo m).s_states with
  | [] => UINT_MAX
  | c :: _ => c

/-- The inner VM-creation loop of Init (lines 78-101) for one CPU type:
iterate the efficiency order, cap at 500 VMs, and create + attach a LINUX VM
on every active machine of that CPU type with room for the overhead. -/
def initVMLoop (act : List Nat) (mlist : List Nat) (ct : CPUType) :
    List Nat → Nat → Host → List Nat → (Host × List Nat × List HostCall)
  | [], _, h, vl => (h, vl, [])
  | m :: rest, created, h, vl =>
    if created ≥ 500 then (h, vl, [])
    else if m ∈ mlist then
      if m ∈ act then
        let mi := h.minfo m
        if mi.memory_used + VM_MEMORY_OVERHEAD ≤ mi.memory_size then
          let hv := hostVmCreate h LINUX ct
          let h2 := hostVmAttach hv.1 hv.2 m
          let r := initVMLoop act mlist ct rest (created + 1) h2 (vl ++ [hv.2])
          (r.1, r.2.1, HostCall.vmCreate hv.2 LINUX ct :: HostCall.vmAttach hv.2 m :: r.2.2)
        else initVMLoop act mlist ct rest created h vl
      else initVMLoop act mlist ct rest created h vl
    else initVMLoop act mlist ct rest created h vl

/-- The outer per-CPU-type loop of Init; std::map<CPUType_t, ...> iterates in
enum order, and a CPU type with no machines contributes nothing either way. -/
def initTypesLoop (act sorted : List Nat) (ids : List Nat) (h0 : Host) :
    List CPUType → Host → List Nat → (Host × List Nat × List HostCall)
  | [], h, vl => (h, vl, [])
  | ct :: cts, h, vl =>
    let mlist := ids.filter fun m => decide ((h0.minfo m).cpu = ct)
    let r := initVMLoop act mlist ct sorted 0 h vl
    let r2 := initTypesLoop act sorted ids h0 cts r.1 r.2.1
    (r2.1, r2.2.1, r.2.2 ++ r2.2.2)

/-- Scheduler::Init (lines 38-104). -/
def schedInit (h : Host) : Step :=
  let ids := List.range h.nMachines
  let act := ids.filter fun m => decide ((h.minfo m).s_state = S0)
  let sorted := (sortLex (ids.map fun m => (effCost h m, m))).map Prod.snd
  let r := initTypesLoop act sorted ids h [ARM, POWER, RISCV, X86] h []
  ⟨{ machines := ids
     activeMachines := act
     machineUtilization := fun _ => 0
     sortedMachinesByEfficiency := sorted
     vms := r.2.1
     pendingMigrations := [] }, r.1, r.2.2⟩

/-! Spec-side definitions, written from the claims to compare the embedded
loops against, plus small helpers used in theorem statements. -/

/-- Option fallback used to phrase the VM-match selection. -/
def oElse (a b : Option Nat) : Option Nat :=
  match a with
  | some x => some x
  | none => b

/-- Spec-side compatibility test of claim C2: a VM is compatible iff it is
not pending migration, is attached, its machine is S0, its CPU family and VM
type match the task's, and the machine has room for the task's memory. -/
def vmCand (h : Host) (pend : List (Nat × Nat)) (rc : CPUType) (rv : VMType)
    (rm : Nat) (vm : Nat) : Bool :=
  (plook pend vm).isNone &&
    match (h.vinfo vm).machine_id with
    | none => false
    | some mid =>
      decide ((h.minfo mid).s_state = S0) && decide ((h.vinfo vm).cpu = rc) &&
        decide ((h.vinfo vm).vm_type = rv) &&
        decide ((h.minfo mid).memory_used + rm ≤ (h.minfo mid).memory_size)

/-- A VM is idle iff it has no active tasks. -/
def vmIdle (h : Host) (vm : Nat) : Bool := (h.vinfo vm).active_tasks.isEmpty

/-- Number of active tasks of a VM. -/
def taskCount (h : Host) (vm : Nat) : Nat := (h.vinfo vm).active_tasks.length

/-- Fewest-active-tasks selection with ties broken in favour of the earliest
element (iteration order), phrased as the claims phrase it. -/
def argminGo (h : Host) : Option Nat → List Nat → Option Nat
  | best, [] => best
  | none, vm :: rest => argminGo h (some vm) rest
  | some b, vm :: rest =>
    if taskCount h vm < taskCount h b then argminGo h (some vm) rest
    else argminGo h (some b) rest

/-- First VM with minimal active-task count in the list. -/
def argminLoad (h : Host) (l : List Nat) : Option Nat := argminGo h none l

/-- Spec-side P-state table of claim C7 (Power Governor). -/
def governorTableTarget (hasHigh : Bool) (ntasks : Nat) (u : ℚ) : CPUPerformance :=
  if hasHigh then P0
  else if ntasks > 0 ∧ u > mkRat 3 4 then P0
  else if ntasks > 0 ∧ mkRat 3 10 < u ∧ u ≤ mkRat 3 4 then P1
  else if ntasks > 0 ∧ u ≤ mkRat 3 10 then P2
  else P3

/-- The per-machine decision of the P-state loop, used to characterise its
emitted trace. -/
def pdecision (s : Sched) (h : Host) (m : Nat) : Option HostCall :=
  if (h.minfo m).s_state = S0 ∧ (h.minfo m).p_state ≠ targetOf s h m then
    some (HostCall.setCorePerf m 0 (targetOf s h m))
  else none

/-- Forget the p_state of a machine record (used to say two host snapshots
differ at most in performance states). -/
def stripP (mi : MachineInfo) : MachineInfo := { mi with p_state := P0 }

/-- Host snapshots that agree except possibly on machine p_states. -/
def hostPEq (h h' : Host) : Prop :=
  h.nMachines = h'.nMachines ∧ h.vinfo = h'.vinfo ∧ h.tinfo = h'.tinfo ∧
    h.nextVm = h'.nextVm ∧ ∀ m, stripP (h.minfo m) = stripP (h'.minfo m)

/-- Recognizer for VM_AddTask calls, used to state that a trace places no
task. -/
def isAddTaskCall : HostCall → Bool
  | HostCall.vmAddTask _ _ _ => true
  | _ => false

/-! Concrete fleet configurations used by counterexamples and witnesses. -/

/-- Machine record builder for concrete configurations. -/
def mkM (ct : CPUType) (nc msz mu : Nat) (ss : MachineState)
    (ps : CPUPerformance) (nt : Nat) : MachineInfo :=
  ⟨ct, nc, msz, mu, ss, ps, nt, [10]⟩

/-- Filler VM record for ids the configuration does not use. -/
def dummyV : VMInfo := ⟨ARM, AIX, none, []⟩

/-- Filler task record for ids the configuration does not use. -/
def dummyT : TaskInfo := ⟨ARM, AIX, 0, SLA3, 0, LOW_PRIORITY⟩

/-- C1: one active ARM machine, no VMs; task 0 needs X86, so every placement
step fails. -/
def hC1 : Host :=
  { nMachines := 1
    minfo := fun _ => mkM ARM 4 1024 0 S0 P3 0
    vinfo := fun _ => dummyV
    tinfo := fun _ => ⟨X86, LINUX, 10, SLA2, 1000000000, LOW_PRIORITY⟩
    nextVm := 0 }

/-- Scheduler state for the C1 configuration. -/
def sC1 : Sched :=
  { machines := [0], activeMachines := [0], machineUtilization := fun _ => 0
    sortedMachinesByEfficiency := [0], vms := [], pendingMigrations := [] }

/-- C2: one S0 X86 machine hosting two idle compatible VMs 0 and 1; task 0 is
a non-urgent SLA2 task matching both. -/
def hC2 : Host :=
  { nMachines := 1
    minfo := fun _ => mkM X86 4 1024 0 S0 P3 0
    vinfo := fun v => if v ≤ 1 then ⟨X86, LINUX, some 0, []⟩ else dummyV
    tinfo := fun _ => ⟨X86, LINUX, 10, SLA2, 1000000000, LOW_PRIORITY⟩
    nextVm := 2 }

/-- Scheduler state for the C2 configuration. -/
def sC2 : Sched :=
  { machines := [0], activeMachines := [0], machineUtilization := fun _ => 0
    sortedMachinesByEfficiency := [0], vms := [0, 1], pendingMigrations := [] }

/-- C3: machine 0 is off (S5) and inactive; VM 5 is unattached, so the
migration-target search reaches machine 0 and wakes it. -/
def hC3 : Host :=
  { nMachines := 1
    minfo := fun _ => mkM X86 4 1024 0 S5 P3 0
    vinfo := fun v => if v = 5 then ⟨X86, LINUX, none, []⟩ else dummyV
    tinfo := fun _ => dummyT
    nextVm := 6 }

/-- Scheduler state for the C3 configuration. -/
def sC3 : Sched :=
  { machines := [0], activeMachines := [], machineUtilization := fun _ => 0
    sortedMachinesByEfficiency := [0], vms := [5], pendingMigrations := [] }

/-- C4: one active S0 machine with one running task and p_state P3; the
pending-migration table is empty, so any MigrationDone is unexpected. -/
def hC4 : Host :=
  { nMachines := 1
    minfo := fun _ => mkM X86 4 1024 0 S0 P3 1
    vinfo := fun _ => dummyV
    tinfo := fun _ => dummyT
    nextVm := 0 }

/-- Scheduler state for the C4 configuration. -/
def sC4 : Sched :=
  { machines := [0], activeMachines := [0], machineUtilization := fun _ => 0
    sortedMachinesByEfficiency := [0], vms := [], pendingMigrations := [] }

/-- C6: machine 0 is off (S5) with a matching CPU, no VMs exist, so the new
task takes the wake-a-machine path. -/
def hC6 : Host :=
  { nMachines := 1
    minfo := fun _ => mkM X86 4 1024 0 S5 P3 0
    vinfo := fun _ => dummyV
    tinfo := fun _ => ⟨X86, LINUX, 10, SLA2, 1000000000, LOW_PRIORITY⟩
    nextVm := 0 }

/-- Scheduler state for the C6 configuration. -/
def sC6 : Sched :=
  { machines := [0], activeMachines := [], machineUtilization := fun _ => 0
    sortedMachinesByEfficiency := [0], vms := [], pendingMigrations := [] }

/-- C8: VM 3 is attached to machine 0 and is pending migration to machine 1
when the end-of-simulation shutdown runs. -/
def hC8 : Host :=
  { nMachines := 1
    minfo := fun _ => mkM X86 4 1024 0 S0 P3 0
    vinfo := fun v => if v = 3 then ⟨X86, LINUX, some 0, []⟩ else dummyV
    tinfo := fun _ => dummyT
    nextVm := 4 }

/-- Scheduler state for the C8 configuration. -/
def sC8 : Sched :=
  { machines := [0], activeMachines := [0], machineUtilization := fun _ => 0
    sortedMachinesByEfficiency := [0], vms := [3], pendingMigrations := [(3, 1)] }

/-- C9: a single S0 X86 machine with room for one VM; Init creates and
attaches exactly one warm-pool VM. -/
def hC9 : Host :=
  { nMachines := 1
    minfo := fun _ => mkM X86 4 100 0 S0 P3 0
    vinfo := fun _ => dummyV
    tinfo := fun _ => dummyT
    nextVm := 0 }

/-! Helper lemmas. -/

theorem mem_sinsert {x a : Nat} {l : List Nat} : x ∈ sinsert a l ↔ x = a ∨ x ∈ l := by
  induction l with
  | nil => simp [sinsert]
  | cons b r ih =>
    unfold sinsert
    split_ifs with h1 h2
    · exact List.mem_cons
    · subst h2
      rw [List.mem_cons]
      tauto
    · rw [List.mem_cons, List.mem_cons, ih]
      tauto

theorem memoryWarning_calls {s : Sched} {h : Host} {m : Nat} {c : HostCall}
    (hc : c ∈ (memoryWarning s h m).calls) : ∃ i, c = HostCall.setCorePerf m i P0 := by
  simp only [memoryWarning, List.mem_map, List.mem_range] at hc
  obtain ⟨i, _, hi⟩ := hc
  exact ⟨i, hi.symm⟩

theorem commitTask_calls_sub {s : Sched} {h : Host} {task rm : Nat} {sla : SLAType}
    {prio : Priority} {tv : Nat} {c : HostCall}
    (hc : c ∈ (commitTask s h task rm sla prio tv).calls) :
    c = HostCall.vmAddTask tv task prio ∨ ∃ m i p, c = HostCall.setCorePerf m i p := by
  rcases hmid : (h.vinfo tv).machine_id with _ | m <;>
    simp only [commitTask, hmid] at hc
  · simp at hc
  · split_ifs at hc with h1 h2 h3
    · simp at hc
    · simp only [List.mem_cons, List.not_mem_nil, or_false] at hc
      rcases hc with hc | hc
      · exact Or.inl hc
      · exact Or.inr ⟨m, 0, P0, hc⟩
    · simp only [List.mem_singleton] at hc
      exact Or.inl hc
    · obtain ⟨i, hi⟩ := memoryWarning_calls hc
      exact Or.inr ⟨m, i, P0, hi⟩

theorem commitTask_addTask {s : Sched} {h : Host} {task rm : Nat} {sla : SLAType}
    {prio : Priority} {tv : Nat} {v t : Nat} {p : Priority}
    (hc : HostCall.vmAddTask v t p ∈ (commitTask s h task rm sla prio tv).calls) :
    v = tv ∧ t = task ∧ p = prio ∧
      ∃ m, (h.vinfo tv).machine_id = some m ∧ (h.minfo m).s_state = S0 := by
  rcases hmid : (h.vinfo tv).machine_id with _ | m <;>
    simp only [commitTask, hmid] at hc
  · simp at hc
  · split_ifs at hc with h1 h2 h3
    · simp at hc
    · simp only [List.mem_cons, List.not_mem_nil, or_false] at hc
      rcases hc with hc | hc
      · obtain ⟨hv, ht, hp⟩ := HostCall.vmAddTask.inj hc
        exact ⟨hv, ht, hp, m, rfl, not_not.mp h1⟩
      · exact absurd hc (by simp)
    · simp only [List.mem_singleton] at hc
      obtain ⟨hv, ht, hp⟩ := HostCall.vmAddTask.inj hc
      exact ⟨hv, ht, hp, m, rfl, not_not.mp h1⟩
    · obtain ⟨i, hi⟩ := memoryWarning_calls hc
      exact absurd hi (by simp)

theorem commitTask_vinfo_machine {s : Sched} {h : Host} {task rm : Nat} {sla : SLAType}
    {prio : Priority} {tv x : Nat} :
    (((commitTask s h task rm sla prio tv).host).vinfo x).machine_id =
      (h.vinfo x).machine_id := by
  rcases hmid : (h.vinfo tv).machine_id with _ | m <;>
    simp only [commitTask, hmid]
  · split_ifs with h1 h2 h3
    · rfl
    · simp only [hostSetPerf, hostAddTask, hmid]
      by_cases hx : x = tv <;> simp [updFn, hx, hmid]
    · simp only [hostAddTask, hmid]
      by_cases hx : x = tv <;> simp [updFn, hx, hmid]
    · simp only [memoryWarning]
      split_ifs <;> rfl

theorem commitTask_unattached {s : Sched} {h : Host} {task rm : Nat} {sla : SLAType}
    {prio : Priority} {tv : Nat} (hu : (h.vinfo tv).machine_id = none) :
    commitTask s h task rm sla prio tv = ⟨s, h, []⟩ := by
  simp only [commitTask, hu]

theorem pstatePhase_calls_shape {s : Sched} {c : HostCall} :
    ∀ {l : List Nat} {h : Host}, c ∈ (pstatePhase s l h).2 →
      ∃ m p, c = HostCall.setCorePerf m 0 p := by
  intro l
  induction l with
  | nil => intro h hc; simp [pstatePhase] at hc
  | cons m rest ih =>
    intro h hc
    simp only [pstatePhase] at hc
    split_ifs at hc with h1 h2
    · exact ih hc
    · simp only [List.mem_cons] at hc
      rcases hc with hc | hc
      · exact ⟨m, _, hc⟩
      · exact ih hc
    · exact ih hc

theorem periodicCheck_calls_shape {s : Sched} {h : Host} {c : HostCall}
    (hc : c ∈ (periodicCheck s h).calls) : ∃ m p, c = HostCall.setCorePerf m 0 p :=
  pstatePhase_calls_shape hc

theorem stateChangeComplete_no_addTask {s : Sched} {h : Host} {m v t : Nat} {p : Priority} :
    HostCall.vmAddTask v t p ∉ (stateChangeComplete s h m).calls := by
  intro hc
  have hper : ∀ (s' : Sched) (h' : Host),
      HostCall.vmAddTask v t p ∉ (periodicCheck s' h').calls := by
    intro s' h' hmem
    obtain ⟨_, _, he⟩ := periodicCheck_calls_shape hmem
    exact absurd he (by simp)
  simp only [stateChangeComplete] at hc
  split_ifs at hc <;> try simp at hc
  all_goals exact hper _ _ hc

/-! Claim C4. -/

/-- Claim C4 (corrected): a MigrationDone for a VM absent from the
Pending-Migration table takes the log-and-ignore branch and leaves the table
untouched, but the callback still falls through to PeriodicCheck — it behaves
exactly like a periodic sweep, which may mutate utilization and issue
Machine_SetCorePerformance. -/
theorem claim_C4 (s : Sched) (h : Host) (vm : Nat)
    (hp : plook s.pendingMigrations vm = none) :
    migrationComplete s h vm = periodicCheck s h ∧
    (migrationComplete s h vm).sched.pendingMigrations = s.pendingMigrations := by
  unfold migrationComplete
  rw [hp]
  exact ⟨rfl, rfl⟩

/-- Witness for claim C4 at the concrete C4 configuration. -/
theorem claim_C4_w :
    migrationComplete sC4 hC4 7 = periodicCheck sC4 hC4 ∧
    (migrationComplete sC4 hC4 7).sched.pendingMigrations = sC4.pendingMigrations :=
  claim_C4 sC4 hC4 7 rfl

/-- Counterexample to claim C4 as stated: VM 7 is not in the
Pending-Migration table, yet the callback issues
Machine_SetCorePerformance(0, 0, P2) and rewrites the stored utilization of
machine 0 — it mutates both the host and the scheduler state. -/
theorem claim_C4_cex :
    plook sC4.pendingMigrations 7 = none ∧
    (migrationComplete sC4 hC4 7).calls = [HostCall.setCorePerf 0 0 P2] ∧
    (migrationComplete sC4 hC4 7).sched.machineUtilization 0 ≠ sC4.machineUtilization 0 := by
  refine ⟨rfl, by decide, by decide⟩

/-! Claim C5. -/

/-- Claim C5 (amended): the derived priority is HIGH iff the task is SLA0 or
the uint64 difference (target_completion - now) mod 2^64 is at most
12,000,000 — so a task whose deadline has been overtaken by now wraps around
and is NOT urgent; MID iff SLA1 and not urgent; LOW iff SLA2/SLA3 and not
urgent; and every VM_AddTask that NewTask issues carries exactly this
derived priority. -/
theorem claim_C5 (s : Sched) (h : Host) (now task : Nat) :
    (∀ sla tc n, (derivedPriority sla tc n = HIGH_PRIORITY ↔
        (sla = SLA0 ∨ usub64 tc n ≤ 12000000))
      ∧ (derivedPriority sla tc n = MID_PRIORITY ↔
        (sla = SLA1 ∧ ¬ usub64 tc n ≤ 12000000))
      ∧ (derivedPriority sla tc n = LOW_PRIORITY ↔
        ((sla = SLA2 ∨ sla = SLA3) ∧ ¬ usub64 tc n ≤ 12000000)))
    ∧ (∀ v t p, HostCall.vmAddTask v t p ∈ (newTask s h now task).calls →
        t = task ∧
        p = derivedPriority (h.tinfo task).required_sla
              (h.tinfo task).target_completion now) := by
  constructor
  · intro sla tc n
    cases sla <;> by_cases hu : usub64 tc n ≤ 12000000 <;>
      simp [derivedPriority, hu]
  · intro v t p hc
    rcases hscan : vmScan s h (h.tinfo task).required_cpu (h.tinfo task).required_vm
        (h.tinfo task).required_memory (h.tinfo task).required_sla with _ | tv
    · rcases hact : findActiveMachineGo s h (h.tinfo task).required_cpu
          (h.tinfo task).required_memory (h.tinfo task).required_sla
          s.sortedMachinesByEfficiency with _ | m
      · rcases hwake : findWakeMachineGo s h (h.tinfo task).required_cpu
            (h.tinfo task).required_memory s.sortedMachinesByEfficiency with _ | m
        · simp only [newTask, hscan, hact, hwake] at hc
          simp at hc
        · simp only [newTask, hscan, hact, hwake, List.mem_cons] at hc
          rcases hc with hc | hc | hc
          · exact absurd hc (by simp)
          · exact absurd hc (by simp)
          · obtain ⟨_, ht, hp, _⟩ := commitTask_addTask hc
            exact ⟨ht, hp⟩
      · simp only [newTask, hscan, hact, List.mem_cons] at hc
        rcases hc with hc | hc | hc
        · exact absurd hc (by simp)
        · exact absurd hc (by simp)
        · obtain ⟨_, ht, hp, _⟩ := commitTask_addTask hc
          exact ⟨ht, hp⟩
    · simp only [newTask, hscan] at hc
      obtain ⟨_, ht, hp, _⟩ := commitTask_addTask hc
      exact ⟨ht, hp⟩

/-- Witness for claim C5 at the concrete C2 configuration, where NewTask
emits VM_AddTask 1 0 LOW. -/
theorem claim_C5_w :
    (0 : Nat) = 0 ∧
      LOW_PRIORITY =
        derivedPriority (hC2.tinfo 0).required_sla (hC2.tinfo 0).target_completion 0 :=
  (claim_C5 sC2 hC2 0 0).2 1 0 LOW_PRIORITY (by decide)

/-- Counterexample to claim C5 as stated: for an SLA2 task whose deadline
(target_completion = 0) has been overtaken by now = 1, the claim's urgency
override demands HIGH, but the unsigned wraparound makes the task non-urgent
and the code derives LOW. -/
theorem claim_C5_cex :
    derivedPriority SLA2 0 1 = LOW_PRIORITY ∧ derivedPriority SLA2 0 1 ≠ HIGH_PRIORITY := by
  decide

/-! Claim C3. -/

theorem findMigTargetGo_new_active {h : Host} {curMid : Option Nat} {rc : CPUType}
    {need : Nat} :
    ∀ {l act : List Nat} {u : Nat → ℚ} {m : Nat},
      m ∈ (findMigTargetGo h curMid rc need l act u).2.1 → m ∉ act →
      (h.minfo m).s_state ≠ S0 ∧
        HostCall.setState m S0 ∈ (findMigTargetGo h curMid rc need l act u).2.2.2 := by
  intro l
  induction l with
  | nil => intro act u m hm hnot; exact absurd hm hnot
  | cons a rest ih =>
    intro act u m hm hnot
    simp only [findMigTargetGo] at hm ⊢
    split_ifs at hm ⊢ with h1 h2 h3 h4 h5 h6
    · exact ih hm hnot
    · exact ih hm hnot
    · exact ih hm hnot
    · by_cases hma : m = a
      · subst hma
        exact ⟨h3, by simp⟩
      · have hnotins : m ∉ sinsert a act := by
          intro hins
          rcases mem_sinsert.mp hins with he | he
          · exact hma he
          · exact hnot he
        have hr := ih hm hnotins
        exact ⟨hr.1, List.mem_cons_of_mem _ hr.2⟩
    · exact ih hm hnot
    · exact absurd hm hnot
    · exact ih hm hnot

/-- Claim C3 (amended): any machine newly present in the Registry's active
set after FindMigrationTarget is one the host still reports as non-S0, and
the search issued Machine_SetState(m, S0) for it in the same callback — the
machine is recorded active at the moment the wake request is issued, not
once the host acknowledges via the state-change callback. -/
theorem claim_C3 (s : Sched) (h : Host) (vm m : Nat)
    (hm : m ∈ (findMigrationTarget s h vm).2.1.activeMachines)
    (hnot : m ∉ s.activeMachines) :
    (h.minfo m).s_state ≠ S0 ∧
      HostCall.setState m S0 ∈ (findMigrationTarget s h vm).2.2 := by
  simp only [findMigrationTarget] at hm ⊢
  exact findMigTargetGo_new_active hm hnot

/-- Witness for claim C3 at the concrete C3 configuration. -/
theorem claim_C3_w :
    (hC3.minfo 0).s_state ≠ S0 ∧
      HostCall.setState 0 S0 ∈ (findMigrationTarget sC3 hC3 5).2.2 :=
  claim_C3 sC3 hC3 5 0 (by decide) (by decide)

/-- Counterexample to claim C3 as stated: FindMigrationTarget inserts the
sleeping machine 0 into the active set in the same callback in which it
issues Machine_SetState — before any StateChangeComplete can have fired — so
after the callback the active set holds a machine the host reports as S5. -/
theorem claim_C3_cex :
    (hC3.minfo 0).s_state = S5 ∧ (0 : Nat) ∉ sC3.activeMachines ∧
    (findMigrationTarget sC3 hC3 5).2.2 = [HostCall.setState 0 S0] ∧
    0 ∈ (findMigrationTarget sC3 hC3 5).2.1.activeMachines := by
  refine ⟨rfl, by decide, by decide, by decide⟩

/-! Batch 2 helpers. -/

theorem hostVmCreate_vinfo_self {h : Host} {vt : VMType} {ct : CPUType} :
    ((hostVmCreate h vt ct).1.vinfo (hostVmCreate h vt ct).2) = ⟨ct, vt, none, []⟩ := by
  simp [hostVmCreate, updFn]

theorem hostVmDetach_vinfo_ne {h : Host} {vm x : Nat} (hx : x ≠ vm) :
    (hostVmDetach h vm).vinfo x = h.vinfo x := by
  simp [hostVmDetach, updFn, hx]

theorem newTask_calls_cases {s : Sched} {h : Host} {now task : Nat} {c : HostCall}
    (hc : c ∈ (newTask s h now task).calls) :
    (∃ v t p, c = HostCall.vmAddTask v t p) ∨ (∃ m i p, c = HostCall.setCorePerf m i p) ∨
    (∃ v vt ct, c = HostCall.vmCreate v vt ct) ∨ (∃ v m, c = HostCall.vmAttach v m) ∨
    (∃ m, c = HostCall.setState m S0) := by
  rcases hscan : vmScan s h (h.tinfo task).required_cpu (h.tinfo task).required_vm
      (h.tinfo task).required_memory (h.tinfo task).required_sla with _ | tv
  · rcases hact : findActiveMachineGo s h (h.tinfo task).required_cpu
        (h.tinfo task).required_memory (h.tinfo task).required_sla
        s.sortedMachinesByEfficiency with _ | m
    · rcases hwake : findWakeMachineGo s h (h.tinfo task).required_cpu
          (h.tinfo task).required_memory s.sortedMachinesByEfficiency with _ | m
      · simp only [newTask, hscan, hact, hwake] at hc
        simp at hc
      · simp only [newTask, hscan, hact, hwake, List.mem_cons] at hc
        rcases hc with hc | hc | hc
        · exact Or.inr (Or.inr (Or.inr (Or.inr ⟨m, hc⟩)))
        · exact Or.inr (Or.inr (Or.inl ⟨_, _, _, hc⟩))
        · rcases commitTask_calls_sub hc with hc | ⟨m2, i, p2, hc⟩
          · exact Or.inl ⟨_, _, _, hc⟩
          · exact Or.inr (Or.inl ⟨m2, i, p2, hc⟩)
    · simp only [newTask, hscan, hact, List.mem_cons] at hc
      rcases hc with hc | hc | hc
      · exact Or.inr (Or.inr (Or.inl ⟨_, _, _, hc⟩))
      · exact Or.inr (Or.inr (Or.inr (Or.inl ⟨_, _, hc⟩)))
      · rcases commitTask_calls_sub hc with hc | ⟨m2, i, p2, hc⟩
        · exact Or.inl ⟨_, _, _, hc⟩
        · exact Or.inr (Or.inl ⟨m2, i, p2, hc⟩)
  · simp only [newTask, hscan] at hc
    rcases commitTask_calls_sub hc with hc | ⟨m2, i, p2, hc⟩
    · exact Or.inl ⟨_, _, _, hc⟩
    · exact Or.inr (Or.inl ⟨m2, i, p2, hc⟩)

theorem newTask_addTask_target {s : Sched} {h : Host} {now task v t : Nat} {p : Priority}
    (hc : HostCall.vmAddTask v t p ∈ (newTask s h now task).calls) :
    vmScan s h (h.tinfo task).required_cpu (h.tinfo task).required_vm
        (h.tinfo task).required_memory (h.tinfo task).required_sla = some v ∨
      v = h.nextVm := by
  rcases hscan : vmScan s h (h.tinfo task).required_cpu (h.tinfo task).required_vm
      (h.tinfo task).required_memory (h.tinfo task).required_sla with _ | tv
  · rcases hact : findActiveMachineGo s h (h.tinfo task).required_cpu
        (h.tinfo task).required_memory (h.tinfo task).required_sla
        s.sortedMachinesByEfficiency with _ | m
    · rcases hwake : findWakeMachineGo s h (h.tinfo task).required_cpu
          (h.tinfo task).required_memory s.sortedMachinesByEfficiency with _ | m
      · simp only [newTask, hscan, hact, hwake] at hc
        simp at hc
      · simp only [newTask, hscan, hact, hwake, List.mem_cons] at hc
        rcases hc with hc | hc | hc
        · exact absurd hc (by simp)
        · exact absurd hc (by simp)
        · rw [commitTask_unattached (by rw [hostVmCreate_vinfo_self])] at hc
          simp at hc
    · simp only [newTask, hscan, hact, List.mem_cons] at hc
      rcases hc with hc | hc | hc
      · exact absurd hc (by simp)
      · exact absurd hc (by simp)
      · exact Or.inr (commitTask_addTask hc).1
  · simp only [newTask, hscan] at hc
    exact Or.inl (congrArg some (commitTask_addTask hc).1.symm)

theorem vmScanGo_not_pending {h : Host} {pend : List (Nat × Nat)} {rc : CPUType}
    {rv : VMType} {rm : Nat} {sla : SLAType} {tv : Nat} :
    ∀ {l : List Nat} {acc : ScanAcc},
      (∀ x, acc.idle = some x → plook pend x = none) →
      (∀ x, acc.least = some x → plook pend x = none) →
      vmScanGo h pend rc rv rm sla l acc = some tv → plook pend tv = none := by
  intro l
  induction l with
  | nil =>
    intro acc hidle hleast hr
    simp only [vmScanGo] at hr
    rcases hi : acc.idle with _ | x <;> simp only [hi] at hr
    · exact hleast tv hr
    · cases hr
      exact hidle tv hi
  | cons vm rest ih =>
    intro acc hidle hleast hr
    simp only [vmScanGo] at hr
    by_cases h1 : (plook pend vm).isSome
    · rw [if_pos h1] at hr
      exact ih hidle hleast hr
    · rw [if_neg h1] at hr
      have hvmnone : plook pend vm = none := Option.not_isSome_iff_eq_none.mp h1
      rcases hmid : (h.vinfo vm).machine_id with _ | mid <;> simp only [hmid] at hr
      · exact ih hidle hleast hr
      · split_ifs at hr <;>
          first
          | exact ih hidle hleast hr
          | (cases hr; exact hvmnone)
          | (refine ih ?_ ?_ hr <;> intro x hx <;> simp only at hx <;>
              first
              | exact hidle x hx
              | exact hleast x hx
              | (cases hx; exact hvmnone))

theorem slaFindTaskVM_not_pending {pend : List (Nat × Nat)} {h : Host} {task tvm tm : Nat} :
    ∀ {l : List Nat}, slaFindTaskVM pend h task l = some (tvm, tm) →
      plook pend tvm = none := by
  intro l
  induction l with
  | nil => intro hr; simp [slaFindTaskVM] at hr
  | cons vm rest ih =>
    intro hr
    simp only [slaFindTaskVM] at hr
    by_cases h1 : (plook pend vm).isSome
    · rw [if_pos h1] at hr
      exact ih hr
    · rw [if_neg h1] at hr
      rcases hmid : (h.vinfo vm).machine_id with _ | mid <;> simp only [hmid] at hr
      · exact ih hr
      · split_ifs at hr with h2
        · obtain ⟨he1, he2⟩ := Prod.mk.inj (Option.some.inj hr)
          subst he1
          exact Option.not_isSome_iff_eq_none.mp h1
        · exact ih hr

theorem findMigTargetGo_calls_shape {h : Host} {curMid : Option Nat} {rc : CPUType}
    {need : Nat} {c : HostCall} :
    ∀ {l act : List Nat} {u : Nat → ℚ},
      c ∈ (findMigTargetGo h curMid rc need l act u).2.2.2 → ∃ mm, c = HostCall.setState mm S0 := by
  intro l
  induction l with
  | nil => intro act u hc; simp [findMigTargetGo] at hc
  | cons a rest ih =>
    intro act u hc
    simp only [findMigTargetGo] at hc
    split_ifs at hc <;>
      first
      | exact ih hc
      | (rcases List.mem_cons.mp hc with hc | hc
         · exact ⟨a, hc⟩
         · exact ih hc)
      | simp at hc

theorem schedShutdownGo_mem {vm mm : Nat} :
    ∀ {l : List Nat} {h : Host}, vm ∈ l → (h.vinfo vm).machine_id = some mm →
      HostCall.vmShutdown vm ∈ (schedShutdownGo h l).2 := by
  intro l
  induction l with
  | nil => intro h hin _; simp at hin
  | cons a rest ih =>
    intro h hin hatt
    by_cases hva : vm = a
    · subst hva
      simp only [schedShutdownGo, hatt]
      simp
    · rcases List.mem_cons.mp hin with he | hin2
      · exact absurd he hva
      · rcases hmid : (h.vinfo a).machine_id with _ | m2
        · simp only [schedShutdownGo, hmid]
          exact ih hin2 hatt
        · simp only [schedShutdownGo, hmid]
          refine List.mem_cons_of_mem _ (ih hin2 ?_)
          rw [hostVmDetach_vinfo_ne hva]
          exact hatt

theorem slaWarning_calls_cases {s : Sched} {h : Host} {task : Nat} {c : HostCall}
    (hc : c ∈ (slaWarning s h task).calls) :
    (∃ t2 p2, c = HostCall.setTaskPriority t2 p2) ∨
    (∃ m2 i p2, c = HostCall.setCorePerf m2 i p2) ∨
    (∃ m2, c = HostCall.setState m2 S0) ∨
    (∃ tvm tm g2, c = HostCall.vmMigrate tvm g2 ∧
      slaFindTaskVM s.pendingMigrations h task s.vms = some (tvm, tm)) := by
  rcases hfind : slaFindTaskVM s.pendingMigrations h task s.vms with _ | tvtm
  · simp only [slaWarning, hfind] at hc
    simp at hc
  · obtain ⟨tvm, tm⟩ := tvtm
    simp only [slaWarning, hfind] at hc
    by_cases hsla : (h.tinfo task).required_sla = SLA0 ∨ (h.tinfo task).required_sla = SLA1
    · rw [if_pos hsla] at hc
      by_cases hb : ((hostSetTaskPriority h task HIGH_PRIORITY).minfo tm).s_state = S0 ∧
          ((hostSetTaskPriority h task HIGH_PRIORITY).minfo tm).p_state ≠ P0
      · rw [if_pos hb] at hc
        dsimp only at hc
        by_cases hov : s.machineUtilization tm > OVERLOAD_THRESHOLD
        · rw [if_pos hov] at hc
          cases hmig : (findMigrationTarget s
              (hostSetPerf (hostSetTaskPriority h task HIGH_PRIORITY) tm P0) tvm).1 with
          | none =>
            simp only [hmig] at hc
            simp only [List.mem_append, List.mem_cons, List.mem_singleton,
              List.not_mem_nil, or_false, false_or] at hc
            rcases hc with (hc | hc) | hc
            · exact Or.inl ⟨_, _, hc⟩
            · exact Or.inr (Or.inl ⟨_, _, _, hc⟩)
            · obtain ⟨mm, he⟩ := findMigTargetGo_calls_shape hc
              exact Or.inr (Or.inr (Or.inl ⟨mm, he⟩))
          | some g =>
            simp only [hmig] at hc
            simp only [List.mem_append, List.mem_cons, List.mem_singleton,
              List.not_mem_nil, or_false, false_or] at hc
            rcases hc with ((hc | hc) | hc) | hc
            · exact Or.inl ⟨_, _, hc⟩
            · exact Or.inr (Or.inl ⟨_, _, _, hc⟩)
            · obtain ⟨mm, he⟩ := findMigTargetGo_calls_shape hc
              exact Or.inr (Or.inr (Or.inl ⟨mm, he⟩))
            · exact Or.inr (Or.inr (Or.inr ⟨tvm, tm, g, hc, rfl⟩))
        · rw [if_neg hov] at hc
          simp only [List.mem_append, List.mem_cons, List.mem_singleton,
            List.not_mem_nil, or_false, false_or] at hc
          rcases hc with hc | hc
          · exact Or.inl ⟨_, _, hc⟩
          · exact Or.inr (Or.inl ⟨_, _, _, hc⟩)
      · rw [if_neg hb] at hc
        dsimp only at hc
        by_cases hov : s.machineUtilization tm > OVERLOAD_THRESHOLD
        · rw [if_pos hov] at hc
          cases hmig : (findMigrationTarget s
              (hostSetTaskPriority h task HIGH_PRIORITY) tvm).1 with
          | none =>
            simp only [hmig] at hc
            simp only [List.mem_append, List.mem_cons, List.mem_singleton,
              List.not_mem_nil, or_false, false_or] at hc
            rcases hc with hc | hc
            · exact Or.inl ⟨_, _, hc⟩
            · obtain ⟨mm, he⟩ := findMigTargetGo_calls_shape hc
              exact Or.inr (Or.inr (Or.inl ⟨mm, he⟩))
          | some g =>
            simp only [hmig] at hc
            simp only [List.mem_append, List.mem_cons, List.mem_singleton,
              List.not_mem_nil, or_false, false_or] at hc
            rcases hc with (hc | hc) | hc
            · exact Or.inl ⟨_, _, hc⟩
            · obtain ⟨mm, he⟩ := findMigTargetGo_calls_shape hc
              exact Or.inr (Or.inr (Or.inl ⟨mm, he⟩))
            · exact Or.inr (Or.inr (Or.inr ⟨tvm, tm, g, hc, rfl⟩))
        · rw [if_neg hov] at hc
          simp only [List.mem_append, List.mem_cons, List.mem_singleton,
            List.not_mem_nil, or_false, false_or, List.append_nil] at hc
          exact Or.inl ⟨_, _, hc⟩
    · rw [if_neg hsla] at hc
      split_ifs at hc with hsla2
      · simp only [List.mem_singleton] at hc
        exact Or.inl ⟨_, _, hc⟩
      · simp at hc


theorem hostVmCreate_snd {h : Host} {vt : VMType} {ct : CPUType} :
    (hostVmCreate h vt ct).2 = h.nextVm := rfl

/-! Claim C1. -/

/-- Claim C1 (corrected): when every placement step fails (no compatible VM,
no eligible active machine, no wakeable machine), NewTask returns with the
scheduler state, host and call trace completely unchanged — the task is
dropped, not marked deferred — and no deferred task ever re-enters placement
through PeriodicCheck or StateChangeComplete, since neither callback ever
issues a VM_AddTask. -/
theorem claim_C1 (s : Sched) (h : Host) (now task m : Nat)
    (h1 : vmScan s h (h.tinfo task).required_cpu (h.tinfo task).required_vm
        (h.tinfo task).required_memory (h.tinfo task).required_sla = none)
    (h2 : findActiveMachineGo s h (h.tinfo task).required_cpu
        (h.tinfo task).required_memory (h.tinfo task).required_sla
        s.sortedMachinesByEfficiency = none)
    (h3 : findWakeMachineGo s h (h.tinfo task).required_cpu
        (h.tinfo task).required_memory s.sortedMachinesByEfficiency = none) :
    newTask s h now task = ⟨s, h, []⟩ ∧
    (∀ v t p, HostCall.vmAddTask v t p ∉ (periodicCheck s h).calls) ∧
    (∀ v t p, HostCall.vmAddTask v t p ∉ (stateChangeComplete s h m).calls) := by
  refine ⟨by simp only [newTask, h1, h2, h3], ?_, ?_⟩
  · intro v t p hc
    obtain ⟨_, _, he⟩ := periodicCheck_calls_shape hc
    exact absurd he (by simp)
  · intro v t p
    exact stateChangeComplete_no_addTask

/-- Witness for claim C1 at the concrete C1 configuration (task requires
X86, the only machine is ARM). -/
theorem claim_C1_w :
    newTask sC1 hC1 0 0 = ⟨sC1, hC1, []⟩ ∧
    (∀ v t p, HostCall.vmAddTask v t p ∉ (periodicCheck sC1 hC1).calls) ∧
    (∀ v t p, HostCall.vmAddTask v t p ∉ (stateChangeComplete sC1 hC1 0).calls) :=
  claim_C1 sC1 hC1 0 0 0 (by decide) (by decide) (by decide)

/-- Counterexample to claim C1 as stated: in the C1 configuration every
placement step fails, yet NewTask leaves the scheduler state bit-for-bit
unchanged (no deferred mark of any kind exists), and the subsequent
PeriodicCheck and StateChangeComplete place no task: the deferred task never
re-enters placement. -/
theorem claim_C1_cex :
    newTask sC1 hC1 0 0 = ⟨sC1, hC1, []⟩ ∧
    (periodicCheck sC1 hC1).calls = [] ∧
    ((stateChangeComplete sC1 hC1 0).calls.all fun c => !isAddTaskCall c) = true :=
  ⟨rfl, by decide, by decide⟩

/-! Claim C6. -/

/-- Claim C6 (corrected): whenever NewTask issues a Machine_SetState wake
request it nevertheless creates the target VM immediately, in the same
callback, before the machine can have reported S0 — only the attach and the
task placement are deferred: the wake-path trace is exactly
[SetState, VM_Create], with no VM_Attach and no VM_AddTask, and the created
VM is left unattached. -/
theorem claim_C6 (s : Sched) (h : Host) (now task m : Nat)
    (hw : HostCall.setState m S0 ∈ (newTask s h now task).calls) :
    (newTask s h now task).calls =
      [HostCall.setState m S0,
       HostCall.vmCreate h.nextVm (h.tinfo task).required_vm (h.tinfo task).required_cpu] ∧
    (((newTask s h now task).host).vinfo h.nextVm).machine_id = none ∧
    (∀ v mm, HostCall.vmAttach v mm ∉ (newTask s h now task).calls) ∧
    (∀ v t p, HostCall.vmAddTask v t p ∉ (newTask s h now task).calls) := by
  rcases hscan : vmScan s h (h.tinfo task).required_cpu (h.tinfo task).required_vm
      (h.tinfo task).required_memory (h.tinfo task).required_sla with _ | tv
  · rcases hact : findActiveMachineGo s h (h.tinfo task).required_cpu
        (h.tinfo task).required_memory (h.tinfo task).required_sla
        s.sortedMachinesByEfficiency with _ | m2
    · rcases hwake : findWakeMachineGo s h (h.tinfo task).required_cpu
          (h.tinfo task).required_memory s.sortedMachinesByEfficiency with _ | m2
      · simp only [newTask, hscan, hact, hwake] at hw
        simp at hw
      · have hU : (((hostVmCreate h (h.tinfo task).required_vm
            (h.tinfo task).required_cpu).1).vinfo
              ((hostVmCreate h (h.tinfo task).required_vm
                (h.tinfo task).required_cpu).2)).machine_id = none := by
          rw [hostVmCreate_vinfo_self]
        simp only [newTask, hscan, hact, hwake, commitTask_unattached hU] at hw ⊢
        have hm : m = m2 := by
          rcases List.mem_cons.mp hw with he | hw2
          · exact (HostCall.setState.inj he).1
          · simp at hw2
        subst hm
        refine ⟨rfl, ?_, ?_, ?_⟩
        · rw [hostVmCreate_snd] at hU
          exact hU
        · intro v mm hc
          simp at hc
        · intro v t p hc
          simp at hc
    · simp only [newTask, hscan, hact] at hw
      rcases List.mem_cons.mp hw with he | hw2
      · exact absurd he (by simp)
      · rcases List.mem_cons.mp hw2 with he | hw3
        · exact absurd he (by simp)
        · rcases commitTask_calls_sub hw3 with he | ⟨mm, i, pp, he⟩ <;>
            exact absurd he (by simp)
  · simp only [newTask, hscan] at hw
    rcases commitTask_calls_sub hw with he | ⟨mm, i, pp, he⟩ <;>
      exact absurd he (by simp)

/-- Witness for claim C6 at the concrete C6 configuration (machine 0 is S5,
so the wake path fires). -/
theorem claim_C6_w :
    (newTask sC6 hC6 0 0).calls =
      [HostCall.setState 0 S0,
       HostCall.vmCreate hC6.nextVm (hC6.tinfo 0).required_vm (hC6.tinfo 0).required_cpu] ∧
    (((newTask sC6 hC6 0 0).host).vinfo hC6.nextVm).machine_id = none :=
  ⟨(claim_C6 sC6 hC6 0 0 0 (by decide)).1, (claim_C6 sC6 hC6 0 0 0 (by decide)).2.1⟩

/-- Counterexample to claim C6 as stated: in the C6 configuration machine 0
is S5, and NewTask's wake path emits VM_Create in the same callback as the
Machine_SetState request, before any StateChangeComplete: VM creation does
not happen only inside StateChangeComplete. -/
theorem claim_C6_cex :
    (hC6.minfo 0).s_state = S5 ∧
    (newTask sC6 hC6 0 0).calls =
      [HostCall.setState 0 S0, HostCall.vmCreate 0 LINUX X86] :=
  ⟨rfl, by decide⟩

/-! Claim C8. -/

/-- Claim C8 (corrected): a VM in the Pending-Migration table is indeed
skipped by placement (no VM_AddTask ever targets it), is never re-migrated
by the SLAWarning path, and receives no VM_Shutdown from placement or
SLAWarning; but the end-of-simulation Scheduler::Shutdown loop has no
pending-migration check and does issue VM_Shutdown for a pending VM that is
attached. -/
theorem claim_C8 (s : Sched) (h : Host) (now task vm g mm : Nat)
    (hp : plook s.pendingMigrations vm = some g)
    (hfresh : vm ≠ h.nextVm)
    (hin : vm ∈ s.vms)
    (hatt : (h.vinfo vm).machine_id = some mm) :
    (∀ t p, HostCall.vmAddTask vm t p ∉ (newTask s h now task).calls) ∧
    (∀ g2, HostCall.vmMigrate vm g2 ∉ (slaWarning s h task).calls) ∧
    HostCall.vmShutdown vm ∉ (slaWarning s h task).calls ∧
    HostCall.vmShutdown vm ∉ (newTask s h now task).calls ∧
    HostCall.vmShutdown vm ∈ (schedShutdown s h).2 := by
  refine ⟨?_, ?_, ?_, ?_, ?_⟩
  · intro t p hc
    rcases newTask_addTask_target hc with hcase | hcase
    · have hnp : plook s.pendingMigrations vm = none := by
        simp only [vmScan] at hcase
        refine vmScanGo_not_pending ?_ ?_ hcase
        · intro x hx
          simp at hx
        · intro x hx
          simp at hx
      rw [hp] at hnp
      cases hnp
    · exact hfresh hcase
  · intro g2 hc
    rcases slaWarning_calls_cases hc with ⟨t2, p2, he⟩ | ⟨m2, i, p2, he⟩ | ⟨m2, he⟩ |
      ⟨tvm, tm, g3, he, hfind⟩
    · exact absurd he (by simp)
    · exact absurd he (by simp)
    · exact absurd he (by simp)
    · have hvt : vm = tvm := (HostCall.vmMigrate.inj he).1
      have hnp := slaFindTaskVM_not_pending hfind
      rw [← hvt, hp] at hnp
      cases hnp
  · intro hc
    rcases slaWarning_calls_cases hc with ⟨t2, p2, he⟩ | ⟨m2, i, p2, he⟩ | ⟨m2, he⟩ |
      ⟨tvm, tm, g3, he, hfind⟩ <;> exact absurd he (by simp)
  · intro hc
    rcases newTask_calls_cases hc with ⟨v2, t2, p2, he⟩ | ⟨m2, i, p2, he⟩ |
      ⟨v2, vt2, ct2, he⟩ | ⟨v2, m2, he⟩ | ⟨m2, he⟩ <;> exact absurd he (by simp)
  · simp only [schedShutdown]
    exact schedShutdownGo_mem hin hatt

/-- Witness for claim C8 at the concrete C8 configuration. -/
theorem claim_C8_w :
    HostCall.vmShutdown 3 ∈ (schedShutdown sC8 hC8).2 :=
  (claim_C8 sC8 hC8 0 0 3 1 0 rfl (by decide) (by decide) (by decide)).2.2.2.2

/-- Counterexample to claim C8 as stated: VM 3 is pending migration to
machine 1, yet end-of-simulation Shutdown issues VM_Shutdown for it. -/
theorem claim_C8_cex :
    plook sC8.pendingMigrations 3 = some 1 ∧
    (schedShutdown sC8 hC8).2 = [HostCall.vmShutdown 3] :=
  ⟨rfl, by decide⟩


/-! P-state phase machinery for claims C7 and C10. -/

theorem stripP_s_state {mi mi' : MachineInfo} (he : stripP mi = stripP mi') :
    mi.s_state = mi'.s_state := by
  have hx := congrArg MachineInfo.s_state he
  exact hx

theorem stripP_active_tasks {mi mi' : MachineInfo} (he : stripP mi = stripP mi') :
    mi.active_tasks = mi'.active_tasks := by
  have hx := congrArg MachineInfo.active_tasks he
  exact hx

theorem stripP_num_cpus {mi mi' : MachineInfo} (he : stripP mi = stripP mi') :
    mi.num_cpus = mi'.num_cpus := by
  have hx := congrArg MachineInfo.num_cpus he
  exact hx

theorem hostPEq_refl (h : Host) : hostPEq h h := ⟨rfl, rfl, rfl, rfl, fun _ => rfl⟩

theorem hostPEq_trans {h1 h2 h3 : Host} (a : hostPEq h1 h2) (b : hostPEq h2 h3) :
    hostPEq h1 h3 :=
  ⟨a.1.trans b.1, a.2.1.trans b.2.1, a.2.2.1.trans b.2.2.1, a.2.2.2.1.trans b.2.2.2.1,
    fun m => (a.2.2.2.2 m).trans (b.2.2.2.2 m)⟩

theorem hostPEq_setPerf {h : Host} {m : Nat} {p : CPUPerformance} :
    hostPEq h (hostSetPerf h m p) := by
  refine ⟨rfl, rfl, rfl, rfl, fun m' => ?_⟩
  unfold hostSetPerf updFn stripP
  by_cases hm : m' = m <;> simp [hm]

theorem hasHigh_congr {vms : List Nat} {h h' : Host} {m : Nat}
    (hv : h.vinfo = h'.vinfo) (ht : h.tinfo = h'.tinfo) :
    hasHighPriorityTasks vms h m = hasHighPriorityTasks vms h' m := by
  unfold hasHighPriorityTasks
  rw [hv, ht]

theorem targetOf_congr {s s' : Sched} {h h' : Host} {m : Nat}
    (hv : h.vinfo = h'.vinfo) (ht : h.tinfo = h'.tinfo)
    (hm : stripP (h.minfo m) = stripP (h'.minfo m))
    (hu : s.machineUtilization m = s'.machineUtilization m)
    (hvms : s.vms = s'.vms) :
    targetOf s h m = targetOf s' h' m := by
  unfold targetOf
  rw [hasHigh_congr hv ht, hvms, stripP_active_tasks hm, hu]

theorem pstatePhase_hostPEq {s : Sched} :
    ∀ {l : List Nat} {h : Host}, hostPEq h (pstatePhase s l h).1 := by
  intro l
  induction l with
  | nil => intro h; exact hostPEq_refl h
  | cons a rest ih =>
    intro h
    simp only [pstatePhase]
    split_ifs with h1 h2
    · exact ih
    · exact hostPEq_trans hostPEq_setPerf ih
    · exact ih

theorem pstatePhase_minfo_notmem {s : Sched} :
    ∀ {l : List Nat} {h : Host} {m : Nat}, m ∉ l →
      ((pstatePhase s l h).1).minfo m = h.minfo m := by
  intro l
  induction l with
  | nil => intro h m _; rfl
  | cons a rest ih =>
    intro h m hm
    have hma : m ≠ a := fun he => hm (he ▸ List.mem_cons_self a rest)
    have hmr : m ∉ rest := fun hr => hm (List.mem_cons_of_mem _ hr)
    simp only [pstatePhase]
    split_ifs with h1 h2
    · exact ih hmr
    · rw [ih hmr]
      simp [hostSetPerf, updFn, hma]
    · exact ih hmr

theorem pstatePhase_post {s : Sched} :
    ∀ {l : List Nat} {h : Host} {m : Nat}, m ∈ l → (h.minfo m).s_state = S0 →
      (((pstatePhase s l h).1).minfo m).p_state = targetOf s h m := by
  intro l
  induction l with
  | nil => intro h m hm _; simp at hm
  | cons a rest ih =>
    intro h m hm hs0
    simp only [pstatePhase]
    split_ifs with h1 h2
    · rcases List.mem_cons.mp hm with he | hmr
      · exact absurd (he ▸ hs0) h1
      · exact ih hmr hs0
    · by_cases hmr : m ∈ rest
      · have hpe : hostPEq h (hostSetPerf h a (targetOf s h a)) := hostPEq_setPerf
        have hs0' : ((hostSetPerf h a (targetOf s h a)).minfo m).s_state = S0 := by
          rw [← stripP_s_state (hpe.2.2.2.2 m)]
          exact hs0
        rw [ih hmr hs0']
        exact (targetOf_congr hpe.2.1.symm hpe.2.2.1.symm (hpe.2.2.2.2 m).symm rfl rfl)
      · have hma : m = a := by
          rcases List.mem_cons.mp hm with he | he
          · exact he
          · exact absurd he hmr
        subst hma
        rw [pstatePhase_minfo_notmem hmr]
        simp [hostSetPerf, updFn]
    · by_cases hmr : m ∈ rest
      · exact ih hmr hs0
      · have hma : m = a := by
          rcases List.mem_cons.mp hm with he | he
          · exact he
          · exact absurd he hmr
        subst hma
        rw [pstatePhase_minfo_notmem hmr]
        exact not_not.mp h2

theorem pstatePhase_noop {s : Sched} :
    ∀ {l : List Nat} {h : Host},
      (∀ m ∈ l, (h.minfo m).s_state = S0 → (h.minfo m).p_state = targetOf s h m) →
      pstatePhase s l h = (h, []) := by
  intro l
  induction l with
  | nil => intro h _; rfl
  | cons a rest ih =>
    intro h hpre
    simp only [pstatePhase]
    split_ifs with h1 h2
    · exact ih fun m hm => hpre m (List.mem_cons_of_mem _ hm)
    · exact absurd (hpre a (List.mem_cons_self a rest) (not_not.mp h1)) h2
    · exact ih fun m hm => hpre m (List.mem_cons_of_mem _ hm)

theorem refreshUtilGo_val {h : Host} {act : List Nat} :
    ∀ {l : List Nat} {u : Nat → ℚ} {m : Nat},
      refreshUtilGo h act l u m = if m ∈ l then utilVal h act m else u m := by
  intro l
  induction l with
  | nil => intro u m; simp [refreshUtilGo]
  | cons a rest ih =>
    intro u m
    simp only [refreshUtilGo]
    rw [ih]
    by_cases hmr : m ∈ rest
    · simp [hmr]
    · by_cases hma : m = a
      · subst hma
        simp [hmr, updFn]
      · simp [hmr, hma, updFn, List.mem_cons]

theorem utilVal_congr {h h' : Host} {act : List Nat} {m : Nat}
    (hm : stripP (h.minfo m) = stripP (h'.minfo m)) :
    utilVal h act m = utilVal h' act m := by
  simp only [utilVal]
  rw [stripP_s_state hm, stripP_num_cpus hm, stripP_active_tasks hm]

/-! Claim C10. -/

/-- Claim C10 (confirmed): running PeriodicCheck twice in a row with no
intervening events issues no host calls on the second run — in particular no
Machine_SetCorePerformance, and PeriodicCheck never issues Machine_SetState
or VM_Migrate at all (its migration block is commented out in the source). -/
theorem claim_C10 (s : Sched) (h : Host) :
    (periodicCheck (periodicCheck s h).sched (periodicCheck s h).host).calls = [] := by
  have hpe : hostPEq h (periodicCheck s h).host := pstatePhase_hostPEq
  have hcalls :
      pstatePhase (periodicCheck (periodicCheck s h).sched (periodicCheck s h).host).sched
          (periodicCheck s h).sched.activeMachines (periodicCheck s h).host =
        ((periodicCheck s h).host, []) := by
    apply pstatePhase_noop
    intro m hm hs0
    have hs0h : (h.minfo m).s_state = S0 := by
      rw [stripP_s_state (hpe.2.2.2.2 m)]
      exact hs0
    have hpost := pstatePhase_post (s := (periodicCheck s h).sched)
      (l := s.activeMachines) (h := h) (m := m) hm hs0h
    have hu2 :
        (periodicCheck (periodicCheck s h).sched (periodicCheck s h).host).sched.machineUtilization m =
          (periodicCheck s h).sched.machineUtilization m := by
      show refreshUtilGo (periodicCheck s h).host s.activeMachines s.machines
            (periodicCheck s h).sched.machineUtilization m =
          (periodicCheck s h).sched.machineUtilization m
      rw [refreshUtilGo_val]
      show (if m ∈ s.machines then utilVal (periodicCheck s h).host s.activeMachines m
          else refreshUtilGo h s.activeMachines s.machines s.machineUtilization m) =
        refreshUtilGo h s.activeMachines s.machines s.machineUtilization m
      rw [refreshUtilGo_val]
      by_cases hmm : m ∈ s.machines
      · rw [if_pos hmm, if_pos hmm, utilVal_congr (hpe.2.2.2.2 m).symm]
      · rw [if_neg hmm]
    have htgt :
        targetOf (periodicCheck (periodicCheck s h).sched (periodicCheck s h).host).sched
            (periodicCheck s h).host m =
          targetOf (periodicCheck s h).sched h m :=
      targetOf_congr hpe.2.1.symm hpe.2.2.1.symm (hpe.2.2.2.2 m).symm hu2 rfl
    rw [htgt]
    exact hpost
  show (pstatePhase (periodicCheck (periodicCheck s h).sched (periodicCheck s h).host).sched
      (periodicCheck s h).sched.activeMachines (periodicCheck s h).host).2 = []
  rw [hcalls]


/-! Claim C7. -/

theorem pdecision_congr {s s' : Sched} {h h' : Host} {m : Nat}
    (hv : h.vinfo = h'.vinfo) (ht : h.tinfo = h'.tinfo)
    (hm : h.minfo m = h'.minfo m)
    (hu : s.machineUtilization m = s'.machineUtilization m)
    (hvms : s.vms = s'.vms) :
    pdecision s h m = pdecision s' h' m := by
  have htg : targetOf s h m = targetOf s' h' m :=
    targetOf_congr hv ht (congrArg stripP hm) hu hvms
  unfold pdecision
  rw [hm, htg]

theorem pstatePhase_calls_nodup {s : Sched} :
    ∀ {l : List Nat}, l.Nodup → ∀ {h : Host},
      (pstatePhase s l h).2 = l.filterMap (pdecision s h) := by
  intro l
  induction l with
  | nil => intro _ h; rfl
  | cons a rest ih =>
    intro hnd h
    have hna : a ∉ rest := (List.nodup_cons.mp hnd).1
    have hndr : rest.Nodup := (List.nodup_cons.mp hnd).2
    simp only [pstatePhase, List.filterMap_cons]
    split_ifs with h1 h2
    · have hde : pdecision s h a = none := by
        unfold pdecision
        rw [if_neg]
        intro hand
        exact h1 hand.1
      rw [hde]
      exact ih hndr
    · have hde : pdecision s h a = some (HostCall.setCorePerf a 0 (targetOf s h a)) := by
        unfold pdecision
        rw [if_pos ⟨not_not.mp h1, h2⟩]
      rw [hde]
      have hcong : ∀ x ∈ rest,
          pdecision s (hostSetPerf h a (targetOf s h a)) x = pdecision s h x := by
        intro x hx
        have hxa : x ≠ a := fun he => hna (he ▸ hx)
        refine pdecision_congr rfl rfl ?_ rfl rfl
        simp [hostSetPerf, updFn, hxa]
      rw [ih hndr, List.filterMap_congr hcong]
    · have hde : pdecision s h a = none := by
        unfold pdecision
        rw [if_neg]
        intro hand
        exact h2 hand.2
      rw [hde]
      exact ih hndr

theorem targetOf_eq_table (s : Sched) (h : Host) (m : Nat) :
    targetOf s h m = governorTableTarget (hasHighPriorityTasks s.vms h m)
      (h.minfo m).active_tasks (s.machineUtilization m) := by
  by_cases hh : hasHighPriorityTasks s.vms h m
  · simp [targetOf, governorTableTarget, hh]
  · by_cases ht : (h.minfo m).active_tasks > 0
    · by_cases h34 : s.machineUtilization m > mkRat 3 4
      · simp [targetOf, governorTableTarget, hh, ht, h34]
      · by_cases h310 : s.machineUtilization m > mkRat 3 10
        · have hle : s.machineUtilization m ≤ mkRat 3 4 := not_lt.mp h34
          simp [targetOf, governorTableTarget, hh, ht, h34, h310, hle]
        · have hle : s.machineUtilization m ≤ mkRat 3 10 := not_lt.mp h310
          simp [targetOf, governorTableTarget, hh, ht, h34, h310, hle]
    · simp [targetOf, governorTableTarget, hh, ht]

/-- Claim C7 (confirmed): at every SchedulerCheck, every emitted call is a
Machine_SetCorePerformance on core 0; for an active S0 machine m the call
SetCorePerformance(m, 0, target) is emitted iff the machine's current
P-state differs from the target given by the Power Governor's table (P0 when
an SLA0/SLA1 task is present, else by the utilization bands with thresholds
0.75 and 0.30, P3 when idle); and the utilization used is
active_tasks / num_cpus as refreshed by this sweep. -/
theorem claim_C7 (s : Sched) (h : Host) (m : Nat)
    (hnd : s.activeMachines.Nodup)
    (hma : m ∈ s.activeMachines)
    (hs0 : (h.minfo m).s_state = S0) :
    (∀ c ∈ (periodicCheck s h).calls, ∃ m2 p, c = HostCall.setCorePerf m2 0 p) ∧
    (HostCall.setCorePerf m 0
        (governorTableTarget (hasHighPriorityTasks s.vms h m) (h.minfo m).active_tasks
          ((periodicCheck s h).sched.machineUtilization m)) ∈ (periodicCheck s h).calls ↔
      (h.minfo m).p_state ≠
        governorTableTarget (hasHighPriorityTasks s.vms h m) (h.minfo m).active_tasks
          ((periodicCheck s h).sched.machineUtilization m)) ∧
    (m ∈ s.machines →
      (periodicCheck s h).sched.machineUtilization m =
        (if 0 < (h.minfo m).num_cpus then
          mkRat ((h.minfo m).active_tasks : Int) (h.minfo m).num_cpus else 0)) := by
  have htbl : targetOf (periodicCheck s h).sched h m =
      governorTableTarget (hasHighPriorityTasks s.vms h m) (h.minfo m).active_tasks
        ((periodicCheck s h).sched.machineUtilization m) :=
    targetOf_eq_table (periodicCheck s h).sched h m
  have hchar : (periodicCheck s h).calls =
      s.activeMachines.filterMap (pdecision (periodicCheck s h).sched h) :=
    pstatePhase_calls_nodup hnd
  have hiff : HostCall.setCorePerf m 0
      (governorTableTarget (hasHighPriorityTasks s.vms h m) (h.minfo m).active_tasks
        ((periodicCheck s h).sched.machineUtilization m)) ∈ (periodicCheck s h).calls ↔
      (h.minfo m).p_state ≠
        governorTableTarget (hasHighPriorityTasks s.vms h m) (h.minfo m).active_tasks
          ((periodicCheck s h).sched.machineUtilization m) := by
    rw [hchar]
    constructor
    · intro hmem
      obtain ⟨a, _, hde⟩ := List.mem_filterMap.mp hmem
      unfold pdecision at hde
      split_ifs at hde with hcond
      · obtain ⟨he1, _, he3⟩ := HostCall.setCorePerf.inj (Option.some.inj hde)
        subst he1
        exact he3 ▸ hcond.2
    · intro hne
      refine List.mem_filterMap.mpr ⟨m, hma, ?_⟩
      unfold pdecision
      have hcond : (h.minfo m).s_state = S0 ∧
          (h.minfo m).p_state ≠ targetOf (periodicCheck s h).sched h m := by
        refine ⟨hs0, ?_⟩
        rw [htbl]
        exact hne
      rw [if_pos hcond, htbl]
  have hutil : m ∈ s.machines →
      (periodicCheck s h).sched.machineUtilization m =
        (if 0 < (h.minfo m).num_cpus then
          mkRat ((h.minfo m).active_tasks : Int) (h.minfo m).num_cpus else 0) := by
    intro hmm
    show refreshUtilGo h s.activeMachines s.machines s.machineUtilization m = _
    rw [refreshUtilGo_val, if_pos hmm]
    unfold utilVal
    rw [if_pos hma]
    simp only [hs0, if_true]
  exact ⟨fun c hc => periodicCheck_calls_shape hc, hiff, hutil⟩

/-- Witness for claim C7: single active S0 machine, four cores, one SLA3
task, P-state P3; the sweep computes utilization 1/4 and demotes core 0
to P2. -/
theorem claim_C7_w :
    HostCall.setCorePerf 0 0 P2 ∈ (periodicCheck sC4 hC4).calls := by
  have hx := (claim_C7 sC4 hC4 0 (by decide) (by decide) (by decide)).2.1
  have htbl : governorTableTarget (hasHighPriorityTasks sC4.vms hC4 0)
      (hC4.minfo 0).active_tasks ((periodicCheck sC4 hC4).sched.machineUtilization 0) = P2 := by
    decide
  rw [htbl] at hx
  exact hx.mpr (by decide)


/-! Claim C9. -/

theorem hostVmAttach_vinfo_self {h : Host} {vm m : Nat} :
    ((hostVmAttach h vm m).vinfo vm).machine_id = some m := by
  simp [hostVmAttach, updFn]

theorem initVMLoop_attach {act mlist : List Nat} {ct : CPUType} {v m : Nat} :
    ∀ {l : List Nat} {created : Nat} {h : Host} {vl : List Nat},
      HostCall.vmAttach v m ∈ (initVMLoop act mlist ct l created h vl).2.2 → m ∈ act := by
  intro l
  induction l with
  | nil => intro created h vl hc; simp [initVMLoop] at hc
  | cons a rest ih =>
    intro created h vl hc
    simp only [initVMLoop] at hc
    split_ifs at hc with h1 h2 h3 h4
    · simp at hc
    · rcases List.mem_cons.mp hc with he | hc2
      · exact absurd he (by simp)
      · rcases List.mem_cons.mp hc2 with he | hc3
        · obtain ⟨_, he2⟩ := HostCall.vmAttach.inj he
          exact he2 ▸ h3
        · exact ih hc3
    · exact ih hc
    · exact ih hc
    · exact ih hc

theorem initTypesLoop_attach {act sorted ids : List Nat} {h0 : Host} {v m : Nat} :
    ∀ {cts : List CPUType} {h : Host} {vl : List Nat},
      HostCall.vmAttach v m ∈ (initTypesLoop act sorted ids h0 cts h vl).2.2 → m ∈ act := by
  intro cts
  induction cts with
  | nil => intro h vl hc; simp [initTypesLoop] at hc
  | cons ct cts2 ih =>
    intro h vl hc
    simp only [initTypesLoop] at hc
    rcases List.mem_append.mp hc with hc | hc
    · exact initVMLoop_attach hc
    · exact ih hc

theorem schedInit_attach_S0 {h : Host} {v m : Nat}
    (hc : HostCall.vmAttach v m ∈ (schedInit h).calls) : (h.minfo m).s_state = S0 := by
  simp only [schedInit] at hc
  have hm := initTypesLoop_attach hc
  simp only [List.mem_filter, List.mem_range] at hm
  exact of_decide_eq_true hm.2

theorem findActiveMachineGo_some {s : Sched} {h : Host} {rc : CPUType} {rm : Nat}
    {sla : SLAType} {m : Nat} :
    ∀ {l : List Nat}, findActiveMachineGo s h rc rm sla l = some m →
      (h.minfo m).s_state = S0 := by
  intro l
  induction l with
  | nil => intro hr; simp [findActiveMachineGo] at hr
  | cons a rest ih =>
    intro hr
    simp only [findActiveMachineGo] at hr
    split_ifs at hr with h1 h2 h3 h4 h5 <;>
      first
      | exact ih hr
      | (cases hr; exact not_not.mp h2)

theorem newTask_attach_S0 {s : Sched} {h : Host} {now task v m : Nat}
    (hc : HostCall.vmAttach v m ∈ (newTask s h now task).calls) :
    (h.minfo m).s_state = S0 := by
  rcases hscan : vmScan s h (h.tinfo task).required_cpu (h.tinfo task).required_vm
      (h.tinfo task).required_memory (h.tinfo task).required_sla with _ | tv
  · rcases hact : findActiveMachineGo s h (h.tinfo task).required_cpu
        (h.tinfo task).required_memory (h.tinfo task).required_sla
        s.sortedMachinesByEfficiency with _ | m2
    · rcases hwake : findWakeMachineGo s h (h.tinfo task).required_cpu
          (h.tinfo task).required_memory s.sortedMachinesByEfficiency with _ | m2
      · simp only [newTask, hscan, hact, hwake] at hc
        simp at hc
      · have hU : (((hostVmCreate h (h.tinfo task).required_vm
            (h.tinfo task).required_cpu).1).vinfo
              ((hostVmCreate h (h.tinfo task).required_vm
                (h.tinfo task).required_cpu).2)).machine_id = none := by
          rw [hostVmCreate_vinfo_self]
        simp only [newTask, hscan, hact, hwake, commitTask_unattached hU] at hc
        simp at hc
    · simp only [newTask, hscan, hact, List.mem_cons] at hc
      rcases hc with he | he | hc3
      · exact absurd he (by simp)
      · obtain ⟨_, he2⟩ := HostCall.vmAttach.inj he
        exact he2 ▸ findActiveMachineGo_some hact
      · rcases commitTask_calls_sub hc3 with he | ⟨mm, i, pp, he⟩ <;>
          exact absurd he (by simp)
  · simp only [newTask, hscan] at hc
    rcases commitTask_calls_sub hc with he | ⟨mm, i, pp, he⟩ <;>
      exact absurd he (by simp)

theorem scc_attach_S0 {s : Sched} {h : Host} {machine_id v m : Nat}
    (hc : HostCall.vmAttach v m ∈ (stateChangeComplete s h machine_id).calls) :
    (h.minfo m).s_state = S0 := by
  have hper : ∀ (s' : Sched) (h' : Host),
      HostCall.vmAttach v m ∈ (periodicCheck s' h').calls → False := by
    intro s' h' hmem
    obtain ⟨_, _, he⟩ := periodicCheck_calls_shape hmem
    exact absurd he (by simp)
  simp only [stateChangeComplete] at hc
  split_ifs at hc <;>
    (try simp only [List.mem_append, List.mem_cons, List.mem_map, List.mem_range,
        List.not_mem_nil, or_false, false_or] at hc) <;>
    first
    | exact hc.elim
    | exact (hper _ _ hc).elim
    | (rcases hc with ⟨i, _, he⟩ | hc
       · exact absurd he (by simp)
       · exact (hper _ _ hc).elim)
    | (rcases hc with ⟨i, _, he⟩ | he | he | hc
       · exact absurd he (by simp)
       · exact absurd he (by simp)
       · rw [(HostCall.vmAttach.inj he).2]
         assumption
       · exact (hper _ _ hc).elim)

theorem newTask_addTask_S0 {s : Sched} {h : Host} {now task v t : Nat} {p : Priority}
    (hc : HostCall.vmAddTask v t p ∈ (newTask s h now task).calls) :
    ∃ mm, (((newTask s h now task).host).vinfo v).machine_id = some mm ∧
      (h.minfo mm).s_state = S0 := by
  rcases hscan : vmScan s h (h.tinfo task).required_cpu (h.tinfo task).required_vm
      (h.tinfo task).required_memory (h.tinfo task).required_sla with _ | tv
  · rcases hact : findActiveMachineGo s h (h.tinfo task).required_cpu
        (h.tinfo task).required_memory (h.tinfo task).required_sla
        s.sortedMachinesByEfficiency with _ | m2
    · rcases hwake : findWakeMachineGo s h (h.tinfo task).required_cpu
          (h.tinfo task).required_memory s.sortedMachinesByEfficiency with _ | m2
      · simp only [newTask, hscan, hact, hwake] at hc
        simp at hc
      · have hU : (((hostVmCreate h (h.tinfo task).required_vm
            (h.tinfo task).required_cpu).1).vinfo
              ((hostVmCreate h (h.tinfo task).required_vm
                (h.tinfo task).required_cpu).2)).machine_id = none := by
          rw [hostVmCreate_vinfo_self]
        simp only [newTask, hscan, hact, hwake, commitTask_unattached hU] at hc
        simp at hc
    · simp only [newTask, hscan, hact, List.mem_cons] at hc ⊢
      rcases hc with he | he | hc3
      · exact absurd he (by simp)
      · exact absurd he (by simp)
      · refine ⟨m2, ?_, findActiveMachineGo_some hact⟩
        rw [commitTask_vinfo_machine, (commitTask_addTask hc3).1]
        exact hostVmAttach_vinfo_self
  · simp only [newTask, hscan] at hc ⊢
    obtain ⟨hv, _, _, mm, hmid, hs0x⟩ := commitTask_addTask hc
    refine ⟨mm, ?_, hs0x⟩
    rw [commitTask_vinfo_machine, hv]
    exact hmid

/-- Claim C9 (confirmed): only S0 machines receive placements or new VM
attachments — every VM_Attach issued by Init, NewTask or StateChangeComplete
targets a machine the host reports in S0, and every VM_AddTask of NewTask is
issued only after re-verifying that the target VM is attached to an S0
machine (so the VM is attached, to an S0 machine, in the resulting host
snapshot). -/
theorem claim_C9 (s : Sched) (h : Host) (now task machine_id v m t : Nat) (p : Priority) :
    (HostCall.vmAttach v m ∈ (schedInit h).calls → (h.minfo m).s_state = S0) ∧
    (HostCall.vmAttach v m ∈ (newTask s h now task).calls → (h.minfo m).s_state = S0) ∧
    (HostCall.vmAttach v m ∈ (stateChangeComplete s h machine_id).calls →
      (h.minfo m).s_state = S0) ∧
    (HostCall.vmAddTask v t p ∈ (newTask s h now task).calls →
      ∃ mm, (((newTask s h now task).host).vinfo v).machine_id = some mm ∧
        (h.minfo mm).s_state = S0) :=
  ⟨fun hc => schedInit_attach_S0 hc, fun hc => newTask_attach_S0 hc,
    fun hc => scc_attach_S0 hc, fun hc => newTask_addTask_S0 hc⟩

/-- Witness for claim C9: in the C9 configuration Init attaches warm-pool
VM 0 to machine 0, which is S0. -/
theorem claim_C9_w :
    HostCall.vmAttach 0 0 ∈ (schedInit hC9).calls ∧ (hC9.minfo 0).s_state = S0 :=
  ⟨by decide, (claim_C9 sC1 hC9 0 0 0 0 0 0 LOW_PRIORITY).1 (by decide)⟩


/-! Claim C2: step lemmas for the VM-match loop. -/

theorem vmCand_true_elim {h : Host} {pend : List (Nat × Nat)} {rc : CPUType}
    {rv : VMType} {rm vm : Nat} (hcand : vmCand h pend rc rv rm vm = true) :
    (plook pend vm).isSome = false ∧ ∃ mid, (h.vinfo vm).machine_id = some mid ∧
      ¬((h.minfo mid).s_state ≠ S0) ∧
      ((h.vinfo vm).cpu = rc ∧ (h.vinfo vm).vm_type = rv) ∧
      (h.minfo mid).memory_used + rm ≤ (h.minfo mid).memory_size := by
  unfold vmCand at hcand
  rcases hmid : (h.vinfo vm).machine_id with _ | mid <;> rw [hmid] at hcand
  · simp at hcand
  · simp only [Bool.and_eq_true, decide_eq_true_eq] at hcand
    obtain ⟨hpn, ⟨⟨hS, hcpu⟩, hvt⟩, hmem⟩ := hcand
    have hpn2 : plook pend vm = none := Option.isNone_iff_eq_none.mp hpn
    exact ⟨by rw [hpn2]; rfl, mid, rfl, not_not.mpr hS, ⟨hcpu, hvt⟩, hmem⟩

theorem vmScanGo_skip {h : Host} {pend : List (Nat × Nat)} {rc : CPUType}
    {rv : VMType} {rm : Nat} {sla : SLAType} {vm : Nat} {rest : List Nat} {acc : ScanAcc}
    (hcand : vmCand h pend rc rv rm vm = false) :
    vmScanGo h pend rc rv rm sla (vm :: rest) acc = vmScanGo h pend rc rv rm sla rest acc := by
  simp only [vmScanGo]
  by_cases h1 : (plook pend vm).isSome
  · rw [if_pos h1]
  · rw [if_neg h1]
    have hpnone : plook pend vm = none := Option.not_isSome_iff_eq_none.mp h1
    rcases hmid : (h.vinfo vm).machine_id with _ | mid <;> simp only [hmid]
    · by_cases hS : (h.minfo mid).s_state ≠ S0
      · rw [if_pos hS]
      · rw [if_neg hS]
        by_cases hcv : (h.vinfo vm).cpu = rc ∧ (h.vinfo vm).vm_type = rv
        · rw [if_pos hcv]
          by_cases hmem : (h.minfo mid).memory_used + rm ≤ (h.minfo mid).memory_size
          · exfalso
            have htr : vmCand h pend rc rv rm vm = true := by
              simp [vmCand, hpnone, hmid, not_not.mp hS, hcv.1, hcv.2, hmem]
            rw [htr] at hcand
            cases hcand
          · rw [if_neg hmem]
        · rw [if_neg hcv]

theorem vmScanGo_idle_break {h : Host} {pend : List (Nat × Nat)} {rc : CPUType}
    {rv : VMType} {rm : Nat} {sla : SLAType} {vm : Nat} {rest : List Nat} {acc : ScanAcc}
    (hcand : vmCand h pend rc rv rm vm = true) (hidle : vmIdle h vm = true)
    (hsla : sla = SLA0 ∨ sla = SLA1) :
    vmScanGo h pend rc rv rm sla (vm :: rest) acc = some vm := by
  obtain ⟨h1, mid, hmid, hS, hcv, hmem⟩ := vmCand_true_elim hcand
  simp only [vmScanGo]
  rw [if_neg (by rw [h1]; simp)]
  simp only [hmid]
  rw [if_neg hS, if_pos hcv, if_pos hmem, if_pos ⟨hidle, hsla⟩]

theorem vmScanGo_idle_cont {h : Host} {pend : List (Nat × Nat)} {rc : CPUType}
    {rv : VMType} {rm : Nat} {sla : SLAType} {vm : Nat} {rest : List Nat} {acc : ScanAcc}
    (hcand : vmCand h pend rc rv rm vm = true) (hidle : vmIdle h vm = true)
    (hsla : ¬(sla = SLA0 ∨ sla = SLA1)) :
    vmScanGo h pend rc rv rm sla (vm :: rest) acc =
      vmScanGo h pend rc rv rm sla rest
        (if 0 < acc.low then ⟨some vm, some vm, 0⟩ else ⟨some vm, acc.least, acc.low⟩) := by
  obtain ⟨h1, mid, hmid, hS, hcv, hmem⟩ := vmCand_true_elim hcand
  have hidle2 : ((h.vinfo vm).active_tasks).isEmpty = true := hidle
  have hlen : ((h.vinfo vm).active_tasks).length = 0 :=
    List.isEmpty_iff_length_eq_zero.mp hidle2
  simp only [vmScanGo]
  rw [if_neg (by rw [h1]; simp)]
  simp only [hmid]
  rw [if_neg hS, if_pos hcv, if_pos hmem, if_neg (fun hand => hsla hand.2), if_pos hidle2]
  rw [hlen]

theorem vmScanGo_busy {h : Host} {pend : List (Nat × Nat)} {rc : CPUType}
    {rv : VMType} {rm : Nat} {sla : SLAType} {vm : Nat} {rest : List Nat} {acc : ScanAcc}
    (hcand : vmCand h pend rc rv rm vm = true) (hidle : vmIdle h vm = false) :
    vmScanGo h pend rc rv rm sla (vm :: rest) acc =
      vmScanGo h pend rc rv rm sla rest
        (if taskCount h vm < acc.low then ⟨acc.idle, some vm, taskCount h vm⟩ else acc) := by
  obtain ⟨h1, mid, hmid, hS, hcv, hmem⟩ := vmCand_true_elim hcand
  have hidle2 : ((h.vinfo vm).active_tasks).isEmpty = false := hidle
  have hie : ¬(((h.vinfo vm).active_tasks).isEmpty = true) := by
    rw [hidle2]
    simp
  simp only [vmScanGo]
  rw [if_neg (by rw [h1]; simp)]
  simp only [hmid]
  rw [if_neg hS, if_pos hcv, if_pos hmem, if_neg (fun hand => hie hand.1), if_neg hie]
  simp only [taskCount]

theorem getLast?_cons_eq {a : Nat} {l : List Nat} :
    (a :: l).getLast? = match l.getLast? with
      | some x => some x
      | none => some a := by
  cases l with
  | nil => rfl
  | cons b t =>
    rcases hg : (b :: t).getLast? with _ | x
    · exact absurd (List.getLast?_eq_none_iff.mp hg) (by simp)
    · rw [List.getLast?_cons_cons, hg]


theorem vmScanGo_sla01_least {h : Host} {pend : List (Nat × Nat)} {rc : CPUType}
    {rv : VMType} {rm : Nat} {sla : SLAType} (hsla : sla = SLA0 ∨ sla = SLA1) :
    ∀ (l : List Nat) (io : Option Nat) (b : Nat),
      vmScanGo h pend rc rv rm sla l ⟨io, some b, taskCount h b⟩ =
        match l.find? (fun vm => vmCand h pend rc rv rm vm && vmIdle h vm) with
        | some v => some v
        | none =>
          match io with
          | some x => some x
          | none => argminGo h (some b) (l.filter (vmCand h pend rc rv rm)) := by
  intro l
  induction l with
  | nil =>
    intro io b
    cases io <;> rfl
  | cons vm rest ih =>
    intro io b
    by_cases hcand : vmCand h pend rc rv rm vm = true
    · by_cases hidle : vmIdle h vm = true
      · have hp : (fun x => vmCand h pend rc rv rm x && vmIdle h x) vm = true := by
          simp [hcand, hidle]
        rw [vmScanGo_idle_break hcand hidle hsla, List.find?_cons_of_pos rest hp]
      · have hidle2 : vmIdle h vm = false := Bool.eq_false_iff.mpr hidle
        have hp : ¬((fun x => vmCand h pend rc rv rm x && vmIdle h x) vm = true) := by
          simp [hidle2]
        rw [vmScanGo_busy hcand hidle2]
        by_cases hlt : taskCount h vm < taskCount h b
        · rw [if_pos hlt, ih io vm, List.find?_cons_of_neg rest hp,
             List.filter_cons_of_pos hcand]
          simp only [argminGo, if_pos hlt]
        · rw [if_neg hlt, ih io b, List.find?_cons_of_neg rest hp,
             List.filter_cons_of_pos hcand]
          simp only [argminGo, if_neg hlt]
    · have hcf : vmCand h pend rc rv rm vm = false := Bool.eq_false_iff.mpr hcand
      have hp : ¬((fun x => vmCand h pend rc rv rm x && vmIdle h x) vm = true) := by
        simp [hcf]
      have hpc : ¬(vmCand h pend rc rv rm vm = true) := hcand
      rw [vmScanGo_skip hcf, ih io b, List.find?_cons_of_neg rest hp,
         List.filter_cons_of_neg hpc]

theorem vmScanGo_sla01_init {h : Host} {pend : List (Nat × Nat)} {rc : CPUType}
    {rv : VMType} {rm : Nat} {sla : SLAType} (hsla : sla = SLA0 ∨ sla = SLA1) :
    ∀ (l : List Nat) (io : Option Nat),
      (∀ vm ∈ l, vmCand h pend rc rv rm vm = true → taskCount h vm < UINT_MAX) →
      vmScanGo h pend rc rv rm sla l ⟨io, none, UINT_MAX⟩ =
        match l.find? (fun vm => vmCand h pend rc rv rm vm && vmIdle h vm) with
        | some v => some v
        | none =>
          match io with
          | some x => some x
          | none => argminGo h none (l.filter (vmCand h pend rc rv rm)) := by
  intro l
  induction l with
  | nil =>
    intro io _
    cases io <;> rfl
  | cons vm rest ih =>
    intro io hcnt
    by_cases hcand : vmCand h pend rc rv rm vm = true
    · by_cases hidle : vmIdle h vm = true
      · have hp : (fun x => vmCand h pend rc rv rm x && vmIdle h x) vm = true := by
          simp [hcand, hidle]
        rw [vmScanGo_idle_break hcand hidle hsla, List.find?_cons_of_pos rest hp]
      · have hidle2 : vmIdle h vm = false := Bool.eq_false_iff.mpr hidle
        have hp : ¬((fun x => vmCand h pend rc rv rm x && vmIdle h x) vm = true) := by
          simp [hidle2]
        have hvm : taskCount h vm < UINT_MAX :=
          hcnt vm (List.mem_cons_self vm rest) hcand
        rw [vmScanGo_busy hcand hidle2, if_pos hvm,
           vmScanGo_sla01_least hsla rest io vm, List.find?_cons_of_neg rest hp,
           List.filter_cons_of_pos hcand]
        simp only [argminGo]
    · have hcf : vmCand h pend rc rv rm vm = false := Bool.eq_false_iff.mpr hcand
      have hp : ¬((fun x => vmCand h pend rc rv rm x && vmIdle h x) vm = true) := by
        simp [hcf]
      have hpc : ¬(vmCand h pend rc rv rm vm = true) := hcand
      rw [vmScanGo_skip hcf,
         ih io (fun x hx hc => hcnt x (List.mem_cons_of_mem _ hx) hc),
         List.find?_cons_of_neg rest hp, List.filter_cons_of_neg hpc]


theorem vmScanGo_other_least {h : Host} {pend : List (Nat × Nat)} {rc : CPUType}
    {rv : VMType} {rm : Nat} {sla : SLAType} (hsla : ¬(sla = SLA0 ∨ sla = SLA1)) :
    ∀ (l : List Nat) (io : Option Nat) (b : Nat),
      vmScanGo h pend rc rv rm sla l ⟨io, some b, taskCount h b⟩ =
        match (l.filter (fun vm => vmCand h pend rc rv rm vm && vmIdle h vm)).getLast? with
        | some v => some v
        | none =>
          match io with
          | some x => some x
          | none => argminGo h (some b) (l.filter (vmCand h pend rc rv rm)) := by
  intro l
  induction l with
  | nil =>
    intro io b
    cases io <;> rfl
  | cons vm rest ih =>
    intro io b
    by_cases hcand : vmCand h pend rc rv rm vm = true
    · by_cases hidle : vmIdle h vm = true
      · have hp : (fun x => vmCand h pend rc rv rm x && vmIdle h x) vm = true := by
          simp [hcand, hidle]
        have hidle2 : ((h.vinfo vm).active_tasks).isEmpty = true := hidle
        have hlen : taskCount h vm = 0 := by
          unfold taskCount
          exact List.isEmpty_iff_length_eq_zero.mp hidle2
        rw [vmScanGo_idle_cont hcand hidle hsla]
        rw [@List.filter_cons_of_pos Nat (fun x => vmCand h pend rc rv rm x && vmIdle h x)
            vm rest hp, getLast?_cons_eq]
        dsimp only
        by_cases hlow : 0 < taskCount h b
        · rw [if_pos hlow, show (⟨some vm, some vm, 0⟩ : ScanAcc) =
              ⟨some vm, some vm, taskCount h vm⟩ by rw [hlen], ih (some vm) vm]
          rcases hg : (rest.filter fun x =>
              vmCand h pend rc rv rm x && vmIdle h x).getLast? with _ | x <;>
            simp only [hg]
        · rw [if_neg hlow, ih (some vm) b]
          rcases hg : (rest.filter fun x =>
              vmCand h pend rc rv rm x && vmIdle h x).getLast? with _ | x <;>
            simp only [hg]
      · have hidle2 : vmIdle h vm = false := Bool.eq_false_iff.mpr hidle
        have hp : ¬((fun x => vmCand h pend rc rv rm x && vmIdle h x) vm = true) := by
          simp [hidle2]
        rw [vmScanGo_busy hcand hidle2]
        by_cases hlt : taskCount h vm < taskCount h b
        · rw [if_pos hlt, ih io vm,
             @List.filter_cons_of_neg Nat (fun x => vmCand h pend rc rv rm x && vmIdle h x)
               vm rest hp,
             List.filter_cons_of_pos hcand]
          simp only [argminGo, if_pos hlt]
        · rw [if_neg hlt, ih io b,
             @List.filter_cons_of_neg Nat (fun x => vmCand h pend rc rv rm x && vmIdle h x)
               vm rest hp,
             List.filter_cons_of_pos hcand]
          simp only [argminGo, if_neg hlt]
    · have hcf : vmCand h pend rc rv rm vm = false := Bool.eq_false_iff.mpr hcand
      have hp : ¬((fun x => vmCand h pend rc rv rm x && vmIdle h x) vm = true) := by
        simp [hcf]
      have hpc : ¬(vmCand h pend rc rv rm vm = true) := hcand
      rw [vmScanGo_skip hcf, ih io b,
         @List.filter_cons_of_neg Nat (fun x => vmCand h pend rc rv rm x && vmIdle h x)
           vm rest hp,
         List.filter_cons_of_neg hpc]

theorem vmScanGo_other_init {h : Host} {pend : List (Nat × Nat)} {rc : CPUType}
    {rv : VMType} {rm : Nat} {sla : SLAType} (hsla : ¬(sla = SLA0 ∨ sla = SLA1)) :
    ∀ (l : List Nat) (io : Option Nat),
      (∀ vm ∈ l, vmCand h pend rc rv rm vm = true → taskCount h vm < UINT_MAX) →
      vmScanGo h pend rc rv rm sla l ⟨io, none, UINT_MAX⟩ =
        match (l.filter (fun vm => vmCand h pend rc rv rm vm && vmIdle h vm)).getLast? with
        | some v => some v
        | none =>
          match io with
          | some x => some x
          | none => argminGo h none (l.filter (vmCand h pend rc rv rm)) := by
  intro l
  induction l with
  | nil =>
    intro io _
    cases io <;> rfl
  | cons vm rest ih =>
    intro io hcnt
    by_cases hcand : vmCand h pend rc rv rm vm = true
    · by_cases hidle : vmIdle h vm = true
      · have hp : (fun x => vmCand h pend rc rv rm x && vmIdle h x) vm = true := by
          simp [hcand, hidle]
        have hidle2 : ((h.vinfo vm).active_tasks).isEmpty = true := hidle
        have hlen : taskCount h vm = 0 := by
          unfold taskCount
          exact List.isEmpty_iff_length_eq_zero.mp hidle2
        have hum : (0 : Nat) < UINT_MAX := by decide
        rw [vmScanGo_idle_cont hcand hidle hsla]
        rw [if_pos hum,
           show (⟨some vm, some vm, 0⟩ : ScanAcc) =
             ⟨some vm, some vm, taskCount h vm⟩ by rw [hlen],
           vmScanGo_other_least hsla rest (some vm) vm]
        rw [@List.filter_cons_of_pos Nat (fun x => vmCand h pend rc rv rm x && vmIdle h x)
            vm rest hp, getLast?_cons_eq]
        rcases hg : (rest.filter fun x =>
            vmCand h pend rc rv rm x && vmIdle h x).getLast? with _ | x <;>
          simp only [hg]
      · have hidle2 : vmIdle h vm = false := Bool.eq_false_iff.mpr hidle
        have hp : ¬((fun x => vmCand h pend rc rv rm x && vmIdle h x) vm = true) := by
          simp [hidle2]
        have hvm : taskCount h vm < UINT_MAX :=
          hcnt vm (List.mem_cons_self vm rest) hcand
        rw [vmScanGo_busy hcand hidle2, if_pos hvm,
           vmScanGo_other_least hsla rest io vm,
           @List.filter_cons_of_neg Nat (fun x => vmCand h pend rc rv rm x && vmIdle h x)
             vm rest hp,
           List.filter_cons_of_pos hcand]
        simp only [argminGo]
    · have hcf : vmCand h pend rc rv rm vm = false := Bool.eq_false_iff.mpr hcand
      have hp : ¬((fun x => vmCand h pend rc rv rm x && vmIdle h x) vm = true) := by
        simp [hcf]
      have hpc : ¬(vmCand h pend rc rv rm vm = true) := hcand
      rw [vmScanGo_skip hcf,
         ih io (fun x hx hc => hcnt x (List.mem_cons_of_mem _ hx) hc),
         @List.filter_cons_of_neg Nat (fun x => vmCand h pend rc rv rm x && vmIdle h x)
           vm rest hp,
         List.filter_cons_of_neg hpc]


theorem argminGo_spec (h : Host) :
    ∀ (l : List Nat) (b : Nat), ∃ r, argminGo h (some b) l = some r ∧
      (∃ l1 l2, b :: l = l1 ++ r :: l2 ∧ ∀ x ∈ l1, taskCount h r < taskCount h x) ∧
      (∀ x ∈ b :: l, taskCount h r ≤ taskCount h x) := by
  intro l
  induction l with
  | nil =>
    intro b
    refine ⟨b, rfl, ⟨[], [], rfl, by simp⟩, ?_⟩
    intro x hx
    rcases List.mem_singleton.mp hx with he
    rw [he]
  | cons vm rest ih =>
    intro b
    by_cases hlt : taskCount h vm < taskCount h b
    · obtain ⟨r, hr, ⟨l1, l2, hsplit, hmin1⟩, hmin2⟩ := ih vm
      have hrv : taskCount h r ≤ taskCount h vm :=
        hmin2 vm (List.mem_cons_self vm rest)
      refine ⟨r, ?_, ⟨b :: l1, l2, ?_, ?_⟩, ?_⟩
      · simp only [argminGo, if_pos hlt]
        exact hr
      · rw [List.cons_append, ← hsplit]
      · intro x hx
        rcases List.mem_cons.mp hx with he | hx1
        · rw [he]
          exact lt_of_le_of_lt hrv hlt
        · exact hmin1 x hx1
      · intro x hx
        rcases List.mem_cons.mp hx with he | hx1
        · rw [he]
          exact le_of_lt (lt_of_le_of_lt hrv hlt)
        · exact hmin2 x hx1
    · obtain ⟨r, hr, ⟨l1, l2, hsplit, hmin1⟩, hmin2⟩ := ih b
      have hble : taskCount h b ≤ taskCount h vm := not_lt.mp hlt
      have hgo : argminGo h (some b) (vm :: rest) = some r := by
        simp only [argminGo, if_neg hlt]
        exact hr
      have hrb : taskCount h r ≤ taskCount h b :=
        hmin2 b (List.mem_cons_self b rest)
      refine ⟨r, hgo, ?_, ?_⟩
      · rcases l1 with _ | ⟨b0, l1t⟩
        · simp only [List.nil_append] at hsplit
          obtain ⟨hrb2, hl2⟩ := List.cons.inj hsplit
          refine ⟨[], vm :: rest, ?_, by simp⟩
          rw [List.nil_append, hrb2]
        · rw [List.cons_append] at hsplit
          obtain ⟨hb0, hrest⟩ := List.cons.inj hsplit
          refine ⟨b :: vm :: l1t, l2, ?_, ?_⟩
          · rw [List.cons_append, List.cons_append, ← hrest]
          · intro x hx
            rcases List.mem_cons.mp hx with he | hx1
            · rw [he, hb0]
              exact hmin1 b0 (List.mem_cons_self b0 l1t)
            · rcases List.mem_cons.mp hx1 with he2 | hx2
              · have hrbb : taskCount h r < taskCount h b := by
                  rw [hb0]
                  exact hmin1 b0 (List.mem_cons_self b0 l1t)
                rw [he2]
                exact lt_of_lt_of_le hrbb hble
              · exact hmin1 x (List.mem_cons_of_mem _ hx2)
      · intro x hx
        rcases List.mem_cons.mp hx with he | hx1
        · rw [he]
          exact hrb
        · rcases List.mem_cons.mp hx1 with he2 | hx2
          · rw [he2]
            exact hrb.trans hble
          · exact hmin2 x (List.mem_cons_of_mem _ hx2)


/-- Claim C2 (corrected): in the VM-match step, pending-migration VMs are
skipped and compatibility is exactly the claimed test; for SLA0/SLA1 the
first idle compatible VM short-circuits the search; but for an SLA2 (or
SLA3) task the chosen idle VM is the LAST idle compatible VM in iteration
order, not the first, because the loop overwrites idle_compatible_vm on
every idle hit; with no idle compatible VM the pick is the compatible VM
with the fewest active tasks, ties broken in favour of the earliest in
iteration order (argminGo, whose minimality and earliest-tie-break
properties are the final conjunct); every VM_AddTask then targets exactly
the selected VM with this task. -/
theorem claim_C2 (s : Sched) (h : Host) (now task : Nat)
    (hcnt : ∀ vm ∈ s.vms, vmCand h s.pendingMigrations (h.tinfo task).required_cpu
        (h.tinfo task).required_vm (h.tinfo task).required_memory vm = true →
        taskCount h vm < UINT_MAX) :
    ((h.tinfo task).required_sla = SLA0 ∨ (h.tinfo task).required_sla = SLA1 →
      vmScan s h (h.tinfo task).required_cpu (h.tinfo task).required_vm
          (h.tinfo task).required_memory (h.tinfo task).required_sla =
        oElse
          (s.vms.find? fun vm =>
            vmCand h s.pendingMigrations (h.tinfo task).required_cpu
              (h.tinfo task).required_vm (h.tinfo task).required_memory vm && vmIdle h vm)
          (argminLoad h (s.vms.filter (vmCand h s.pendingMigrations
            (h.tinfo task).required_cpu (h.tinfo task).required_vm
            (h.tinfo task).required_memory)))) ∧
    ((h.tinfo task).required_sla = SLA2 ∨ (h.tinfo task).required_sla = SLA3 →
      vmScan s h (h.tinfo task).required_cpu (h.tinfo task).required_vm
          (h.tinfo task).required_memory (h.tinfo task).required_sla =
        oElse
          ((s.vms.filter fun vm =>
            vmCand h s.pendingMigrations (h.tinfo task).required_cpu
              (h.tinfo task).required_vm (h.tinfo task).required_memory vm &&
              vmIdle h vm).getLast?)
          (argminLoad h (s.vms.filter (vmCand h s.pendingMigrations
            (h.tinfo task).required_cpu (h.tinfo task).required_vm
            (h.tinfo task).required_memory)))) ∧
    (∀ tv, vmScan s h (h.tinfo task).required_cpu (h.tinfo task).required_vm
        (h.tinfo task).required_memory (h.tinfo task).required_sla = some tv →
      ∀ v t2 p2, HostCall.vmAddTask v t2 p2 ∈ (newTask s h now task).calls →
        v = tv ∧ t2 = task) ∧
    (∀ (l : List Nat) (b : Nat), ∃ r, argminGo h (some b) l = some r ∧
      (∃ l1 l2, b :: l = l1 ++ r :: l2 ∧ ∀ x ∈ l1, taskCount h r < taskCount h x) ∧
      (∀ x ∈ b :: l, taskCount h r ≤ taskCount h x)) := by
  refine ⟨?_, ?_, ?_, argminGo_spec h⟩
  · intro hsla
    unfold vmScan
    rw [vmScanGo_sla01_init hsla s.vms none hcnt]
    unfold oElse argminLoad
    rcases hf : s.vms.find? (fun vm =>
        vmCand h s.pendingMigrations (h.tinfo task).required_cpu
          (h.tinfo task).required_vm (h.tinfo task).required_memory vm &&
          vmIdle h vm) with _ | v <;> simp only [hf]
  · intro hsla2
    have hsla : ¬((h.tinfo task).required_sla = SLA0 ∨ (h.tinfo task).required_sla = SLA1) := by
      rcases hsla2 with h2 | h2 <;> rw [h2] <;> decide
    unfold vmScan
    rw [vmScanGo_other_init hsla s.vms none hcnt]
    unfold oElse argminLoad
    rcases hf : (s.vms.filter fun vm =>
        vmCand h s.pendingMigrations (h.tinfo task).required_cpu
          (h.tinfo task).required_vm (h.tinfo task).required_memory vm &&
          vmIdle h vm).getLast? with _ | v <;> simp only [hf]
  · intro tv hscan v t2 p2 hc
    simp only [newTask, hscan] at hc
    have hx := commitTask_addTask hc
    exact ⟨hx.1, hx.2.1⟩

/-- Witness for claim C2 at the concrete C2 configuration: the SLA2 task is
routed to the last idle compatible VM computed by the characterisation. -/
theorem claim_C2_w :
    vmScan sC2 hC2 (hC2.tinfo 0).required_cpu (hC2.tinfo 0).required_vm
        (hC2.tinfo 0).required_memory (hC2.tinfo 0).required_sla =
      oElse
        ((sC2.vms.filter fun vm =>
          vmCand hC2 sC2.pendingMigrations (hC2.tinfo 0).required_cpu
            (hC2.tinfo 0).required_vm (hC2.tinfo 0).required_memory vm &&
            vmIdle hC2 vm).getLast?)
        (argminLoad hC2 (sC2.vms.filter (vmCand hC2 sC2.pendingMigrations
          (hC2.tinfo 0).required_cpu (hC2.tinfo 0).required_vm
          (hC2.tinfo 0).required_memory))) :=
  (claim_C2 sC2 hC2 0 0 (by decide)).2.1 (by decide)

/-- Counterexample to claim C2 as stated: VMs 0 and 1 are both idle and
compatible, the task is SLA2, and NewTask attaches the task to VM 1 — the
last idle compatible VM — not to the first (lowest-id) one, VM 0. -/
theorem claim_C2_cex :
    vmCand hC2 sC2.pendingMigrations X86 LINUX 10 0 = true ∧ vmIdle hC2 0 = true ∧
    vmCand hC2 sC2.pendingMigrations X86 LINUX 10 1 = true ∧ vmIdle hC2 1 = true ∧
    (hC2.tinfo 0).required_sla = SLA2 ∧
    (newTask sC2 hC2 0 0).calls = [HostCall.vmAddTask 1 0 LOW_PRIORITY] := by
  decide

end EEC
